import Mathlib

/-!
Verification development for the DeVerify scraping pipeline
(`scraper/models.py`, `scraper/db.py`, `scraper/scraper.py`).

The Python code is shallowly embedded: pure helpers become Lean functions on
`List Char` / `String`, the module-scoped Mongo connection state becomes an
explicit record that is threaded through the persistence functions, and the
DOM consumed by the extraction engine becomes an explicit element tree.
Python exceptions that the code swallows become `Option`/`Except` values.
-/

/- ===================== Python string primitives ===================== -/

/-- ASCII whitespace, as matched by Python `str.strip()` and the regex
class `\s` on ASCII input. -/
def isPyWs (c : Char) : Bool :=
  c = ' ' || c = '\t' || c = '\n' || c = '\r' || c = '\x0b' || c = '\x0c'

/-- Python `s.lstrip()` restricted to a character predicate. -/
def lstripP (p : Char → Bool) (l : List Char) : List Char := l.dropWhile p

/-- Python `s.rstrip()` restricted to a character predicate. -/
def rstripP (p : Char → Bool) (l : List Char) : List Char :=
  (l.reverse.dropWhile p).reverse

/-- Python `s.strip()` (whitespace from both ends). -/
def pyStrip (l : List Char) : List Char := rstripP isPyWs (lstripP isPyWs l)

/-- Python `s.replace(pat, rep)`: leftmost, non-overlapping replacement of
every occurrence.  The fuel argument (initialised to the input length)
only serves structural termination: each step consumes at least one input
character, so it is never exhausted. -/
def pyReplaceAux : Nat → List Char → List Char → List Char → List Char
  | 0, s, _, _ => s
  | fuel + 1, s, pat, rep =>
    match s with
    | [] => []
    | c :: rest =>
      if (!pat.isEmpty) && pat.isPrefixOf (c :: rest) then
        rep ++ pyReplaceAux fuel (List.drop (pat.length - 1) rest) pat rep
      else
        c :: pyReplaceAux fuel rest pat rep

/-- Python `s.replace(pat, rep)`.  The call sites in the repository always
pass a non-empty pattern (`"Z"`, `"."`). -/
def pyReplace (s pat rep : List Char) : List Char :=
  pyReplaceAux s.length s pat rep

/-- Python `s.split(sep)` for a one-character separator (the repository only
splits on `"/"`).  `"".split("/") = [""]`, `"/".split("/") = ["", ""]`. -/
def splitChar (sep : Char) : List Char → List (List Char)
  | [] => [[]]
  | c :: rest =>
    if c = sep then [] :: splitChar sep rest
    else
      match splitChar sep rest with
      | [] => [[c]]
      | g :: gs => (c :: g) :: gs

/- ===================== Proleptic Gregorian calendar =====================
Mirrors the helpers behind CPython's `datetime.date`: leap years, month
lengths and `date.toordinal()`. -/

def isLeap (y : Nat) : Bool := (y % 4 == 0 && y % 100 != 0) || y % 400 == 0

def daysInMonth (y m : Nat) : Nat :=
  if m = 2 then (if isLeap y then 29 else 28)
  else if m = 4 ∨ m = 6 ∨ m = 9 ∨ m = 11 then 30
  else 31

def daysBeforeMonth (y m : Nat) : Nat :=
  let base : Nat :=
    match m with
    | 1 => 0 | 2 => 31 | 3 => 59 | 4 => 90 | 5 => 120 | 6 => 151
    | 7 => 181 | 8 => 212 | 9 => 243 | 10 => 273 | 11 => 304 | _ => 334
  if 3 ≤ m ∧ isLeap y then base + 1 else base

/-- `date(y, m, d).toordinal()`: day number with 0001-01-01 as day 1. -/
def toOrdinal (y m d : Nat) : Nat :=
  365 * (y - 1) + (y - 1) / 4 - (y - 1) / 100 + (y - 1) / 400
    + daysBeforeMonth y m + d

/-- Microsecond timestamp of midnight of a calendar day (naive). -/
def pyStampD (y m d : Nat) : Int := ((toOrdinal y m d) * 86400 : Nat) * 1000000

/- ===================== Decimal digits ===================== -/

def digitChar : Nat → Char
  | 0 => '0' | 1 => '1' | 2 => '2' | 3 => '3' | 4 => '4'
  | 5 => '5' | 6 => '6' | 7 => '7' | 8 => '8' | _ => '9'

/-- Numeric value of an ASCII decimal digit (`none` otherwise). -/
def digitToVal (c : Char) : Option Nat :=
  if '0' ≤ c ∧ c ≤ '9' then some (c.toNat - 48) else none

/-- Two-digit zero-padded rendering (`"%02d"` for values below 100). -/
def pad2 (n : Nat) : List Char := [digitChar (n / 10 % 10), digitChar (n % 10)]

/-- Four-digit zero-padded rendering (`"%04d"` for values below 10000). -/
def pad4 (n : Nat) : List Char :=
  [digitChar (n / 1000 % 10), digitChar (n / 100 % 10),
   digitChar (n / 10 % 10), digitChar (n % 10)]

/- ===================== strptime model (models.py 18-26) =====================
`parse_iso_date` calls `datetime.strptime` with the five formats
`%Y-%m-%d`, `%d %b %Y`, `%d %B %Y`, `%b %d, %Y`, `%B %d, %Y`.
CPython's `_strptime` compiles each directive to a regex fragment:
  %Y → \d\d\d\d        %m → 1[0-2]|0[1-9]|[1-9]     %d → 3[01]|[12]\d|0[1-9]|[1-9]
  %b → month abbreviations, %B → month names (both case-insensitive),
  whitespace in the format → \s+, other characters are literals,
and the whole input must be consumed.  For these five formats the ordered
alternatives below are equivalent to the backtracking regex (after a
two-digit numeric field the format always requires whitespace or
punctuation, never another digit, so committing to the first alternative
never changes the outcome). -/

/-- `%Y`: exactly four digits. -/
def parseY : List Char → Option (Nat × List Char)
  | c1 :: c2 :: c3 :: c4 :: rest =>
    match digitToVal c1, digitToVal c2, digitToVal c3, digitToVal c4 with
    | some a, some b, some c, some d => some (((a * 10 + b) * 10 + c) * 10 + d, rest)
    | _, _, _, _ => none
  | _ => none

/-- `%m`: alternatives `1[0-2] | 0[1-9] | [1-9]`, in that order. -/
def parseM (l : List Char) : Option (Nat × List Char) :=
  match l with
  | c1 :: c2 :: rest =>
    match digitToVal c1, digitToVal c2 with
    | some a, some b =>
      if a = 1 ∧ b ≤ 2 then some (10 + b, rest)
      else if a = 0 ∧ 1 ≤ b then some (b, rest)
      else if 1 ≤ a then some (a, c2 :: rest)
      else none
    | some a, none => if 1 ≤ a then some (a, c2 :: rest) else none
    | none, _ => none
  | [c1] =>
    match digitToVal c1 with
    | some a => if 1 ≤ a then some (a, []) else none
    | none => none
  | [] => none

/-- `%d`: alternatives `3[01] | [12]\d | 0[1-9] | [1-9]`, in that order. -/
def parseD (l : List Char) : Option (Nat × List Char) :=
  match l with
  | c1 :: c2 :: rest =>
    match digitToVal c1, digitToVal c2 with
    | some a, some b =>
      if a = 3 ∧ b ≤ 1 then some (30 + b, rest)
      else if a = 1 ∨ a = 2 then some (a * 10 + b, rest)
      else if a = 0 ∧ 1 ≤ b then some (b, rest)
      else if 1 ≤ a then some (a, c2 :: rest)
      else none
    | some a, none => if 1 ≤ a then some (a, c2 :: rest) else none
    | none, _ => none
  | [c1] =>
    match digitToVal c1 with
    | some a => if 1 ≤ a then some (a, []) else none
    | none => none
  | [] => none

/-- ASCII lower-casing, for the case-insensitive month-name match. -/
def lowAsc (c : Char) : Char :=
  if 'A' ≤ c ∧ c ≤ 'Z' then Char.ofNat (c.toNat + 32) else c

/-- Match a (lower-case) name against the input, case-insensitively. -/
def matchNameCI : List Char → List Char → Option (List Char)
  | [], l => some l
  | _ :: _, [] => none
  | n :: ns, c :: cs => if lowAsc c = n then matchNameCI ns cs else none

def tryNames : List (Nat × List Char) → List Char → Option (Nat × List Char)
  | [], _ => none
  | (v, nm) :: rest, l =>
    match matchNameCI nm l with
    | some l' => some (v, l')
    | none => tryNames rest l

def monthAbbrs : List (Nat × List Char) :=
  [(1, "jan".data), (2, "feb".data), (3, "mar".data), (4, "apr".data),
   (5, "may".data), (6, "jun".data), (7, "jul".data), (8, "aug".data),
   (9, "sep".data), (10, "oct".data), (11, "nov".data), (12, "dec".data)]

def monthNames : List (Nat × List Char) :=
  [(1, "january".data), (2, "february".data), (3, "march".data),
   (4, "april".data), (5, "may".data), (6, "june".data), (7, "july".data),
   (8, "august".data), (9, "september".data), (10, "october".data),
   (11, "november".data), (12, "december".data)]

/-- `%b`: abbreviated month name (C locale, case-insensitive). -/
def parseB (l : List Char) : Option (Nat × List Char) := tryNames monthAbbrs l

/-- `%B`: full month name (C locale, case-insensitive). -/
def parseBB (l : List Char) : Option (Nat × List Char) := tryNames monthNames l

/-- Whitespace in a strptime format: `\s+`. -/
def parseWsRun : List Char → Option (List Char)
  | c :: rest => if isPyWs c then some (rest.dropWhile isPyWs) else none
  | [] => none

/-- The strptime directives occurring in the five formats of
`parse_iso_date`. -/
inductive Dir where
  | dirY | dirM | dirD | dirB | dirBB | wsp | lit (c : Char)
deriving DecidableEq

structure DateParts where
  y : Nat
  m : Nat
  d : Nat
deriving DecidableEq, Repr

def runDirs : List Dir → List Char → DateParts → Option (DateParts × List Char)
  | [], l, acc => some (acc, l)
  | Dir.dirY :: ds, l, acc =>
    match parseY l with
    | some (v, l') => runDirs ds l' { acc with y := v }
    | none => none
  | Dir.dirM :: ds, l, acc =>
    match parseM l with
    | some (v, l') => runDirs ds l' { acc with m := v }
    | none => none
  | Dir.dirD :: ds, l, acc =>
    match parseD l with
    | some (v, l') => runDirs ds l' { acc with d := v }
    | none => none
  | Dir.dirB :: ds, l, acc =>
    match parseB l with
    | some (v, l') => runDirs ds l' { acc with m := v }
    | none => none
  | Dir.dirBB :: ds, l, acc =>
    match parseBB l with
    | some (v, l') => runDirs ds l' { acc with m := v }
    | none => none
  | Dir.wsp :: ds, l, acc =>
    match parseWsRun l with
    | some l' => runDirs ds l' acc
    | none => none
  | Dir.lit c :: ds, l, acc =>
    match l with
    | c' :: l' => if c' = c then runDirs ds l' acc else none
    | [] => none

/-- Validity check performed by the `datetime` constructor inside
`strptime`: `MINYEAR ≤ y ≤ MAXYEAR`, month in range and day within the
month's length (otherwise `strptime` raises and `parse_iso_date` falls
through to the next format). -/
def validDate (p : DateParts) : Bool :=
  1 ≤ p.y && p.y ≤ 9999 && 1 ≤ p.m && p.m ≤ 12 && 1 ≤ p.d &&
    p.d ≤ daysInMonth p.y p.m

/-- `datetime.strptime(l, fmt)` for one of the five formats: pattern match,
full consumption of the input, then date validity. -/
def runFmt (ds : List Dir) (l : List Char) : Option DateParts :=
  match runDirs ds l ⟨1900, 1, 1⟩ with
  | some (p, []) => if validDate p then some p else none
  | _ => none

def fmtYmd : List Dir := [Dir.dirY, Dir.lit '-', Dir.dirM, Dir.lit '-', Dir.dirD]
def fmtDMonY : List Dir := [Dir.dirD, Dir.wsp, Dir.dirB, Dir.wsp, Dir.dirY]
def fmtDMonthY : List Dir := [Dir.dirD, Dir.wsp, Dir.dirBB, Dir.wsp, Dir.dirY]
def fmtMonDY : List Dir := [Dir.dirB, Dir.wsp, Dir.dirD, Dir.lit ',', Dir.wsp, Dir.dirY]
def fmtMonthDY : List Dir := [Dir.dirBB, Dir.wsp, Dir.dirD, Dir.lit ',', Dir.wsp, Dir.dirY]

/-- The `for fmt in (...)` loop of `parse_iso_date`: first format that
parses wins. -/
def firstParse (l : List Char) : Option DateParts :=
  match runFmt fmtYmd l with
  | some p => some p
  | none =>
  match runFmt fmtDMonY l with
  | some p => some p
  | none =>
  match runFmt fmtDMonthY l with
  | some p => some p
  | none =>
  match runFmt fmtMonDY l with
  | some p => some p
  | none => runFmt fmtMonthDY l

/-- `datetime(y, m, d).isoformat()`: the parsed dates carry the strptime
default time 00:00:00 and no timezone, so the rendering is always
`YYYY-MM-DDT00:00:00`. -/
def isoRender (p : DateParts) : List Char :=
  pad4 p.y ++ '-' :: (pad2 p.m ++ '-' :: (pad2 p.d ++ 'T' :: "00:00:00".data))

/-- `parse_iso_date` (models.py 18-26): strip the input, try the five
formats in order, render the first successful parse as ISO-8601, and fall
back to the stripped input when every format fails. -/
def parse_iso_date (s : String) : String :=
  match firstParse (pyStrip s.data) with
  | some p => String.mk (isoRender p)
  | none => String.mk (pyStrip s.data)

example : parse_iso_date "2024-03-15" = "2024-03-15T00:00:00" := by decide
example : parse_iso_date "not a date" = "not a date" := by decide
example : parse_iso_date " 15 Mar 2024 " = "2024-03-15T00:00:00" := by decide
example : parse_iso_date "March 5, 2024" = "2024-03-05T00:00:00" := by decide
example : parse_iso_date "31 Feb 2024" = "31 Feb 2024" := by decide

/- ===================== datetime.fromisoformat model =====================
`determine_status_from_iso` (scraper.py 191-210) parses timestamps with
`datetime.fromisoformat(x.replace("Z", "+00:00"))`.  A parsed value is a
point on the naive time line (fields encoded as microseconds since
0001-01-01 00:00:00) plus an optional UTC offset.  Python compares two
naive datetimes field-wise (equivalently: by this encoding), two aware
datetimes by `fields - offset`, and raises `TypeError` on a naive/aware
mix; `datetime.utcnow()` is naive. -/

structure PyDatetime where
  stamp : Int
  off : Option Int
deriving DecidableEq, Repr

/-- Exactly two digits. -/
def parse2 : List Char → Option (Nat × List Char)
  | c1 :: c2 :: rest =>
    match digitToVal c1, digitToVal c2 with
    | some a, some b => some (a * 10 + b, rest)
    | _, _ => none
  | _ => none

def expectChar (c : Char) : List Char → Option (List Char)
  | c' :: rest => if c' = c then some rest else none
  | [] => none

/-- Run of decimal digits, with their count. -/
def takeDigits : List Char → (List Nat × List Char)
  | [] => ([], [])
  | c :: rest =>
    match digitToVal c with
    | some v =>
      let (ds, r) := takeDigits rest
      (v :: ds, r)
    | none => ([], c :: rest)

/-- Fractional seconds: 1-6 digits after the decimal point, scaled to
microseconds. -/
def parseFrac (l : List Char) : Option (Nat × List Char) :=
  let (ds, r) := takeDigits l
  if ds.length = 0 ∨ 7 ≤ ds.length then none
  else some ((ds.foldl (fun a d => a * 10 + d) 0) * 10 ^ (6 - ds.length), r)

/-- `HH[:MM[:SS[.ffffff]]]` as microseconds within the day. -/
def parseTime (l : List Char) : Option (Nat × List Char) :=
  match parse2 l with
  | none => none
  | some (h, l1) =>
    if 24 ≤ h then none
    else
      match l1 with
      | ':' :: l2 =>
        match parse2 l2 with
        | none => none
        | some (mi, l3) =>
          if 60 ≤ mi then none
          else
            match l3 with
            | ':' :: l4 =>
              match parse2 l4 with
              | none => none
              | some (s, l5) =>
                if 60 ≤ s then none
                else
                  match l5 with
                  | '.' :: l6 =>
                    match parseFrac l6 with
                    | none => none
                    | some (f, l7) =>
                      some ((h * 3600 + mi * 60 + s) * 1000000 + f, l7)
                  | _ => some ((h * 3600 + mi * 60 + s) * 1000000, l5)
            | _ => some ((h * 3600 + mi * 60) * 1000000, l3)
      | _ => some (h * 3600 * 1000000, l1)

/-- UTC offset magnitude `HH:MM[:SS]` in seconds (bounded below one day, as
enforced by `datetime.timezone`). -/
def parseTzMag (l : List Char) : Option (Nat × List Char) :=
  match parse2 l with
  | none => none
  | some (hh, l1) =>
    match expectChar ':' l1 with
    | none => none
    | some l2 =>
      match parse2 l2 with
      | none => none
      | some (mm, l3) =>
        if 24 ≤ hh ∨ 60 ≤ mm then none
        else
          match l3 with
          | ':' :: l4 =>
            match parse2 l4 with
            | none => none
            | some (ss, l5) =>
              if 60 ≤ ss then none
              else some (hh * 3600 + mm * 60 + ss, l5)
          | _ => some (hh * 3600 + mm * 60, l3)

/-- Signed UTC offset, in microseconds. -/
def parseTz (l : List Char) : Option (Int × List Char) :=
  match l with
  | '+' :: rest =>
    match parseTzMag rest with
    | some (v, r) => some (((v : Int) * 1000000, r))
    | none => none
  | '-' :: rest =>
    match parseTzMag rest with
    | some (v, r) => some ((-(v : Int) * 1000000, r))
    | none => none
  | _ => none

/-- `datetime.fromisoformat`: `YYYY-MM-DD[<sep>HH[:MM[:SS[.ffffff]]][±HH:MM[:SS]]]`
with any single character as date/time separator; unparsable input is
`none` (Python: `ValueError`). -/
def fromisoformat (l : List Char) : Option PyDatetime :=
  match parseY l with
  | none => none
  | some (y, l1) =>
  match expectChar '-' l1 with
  | none => none
  | some l2 =>
  match parse2 l2 with
  | none => none
  | some (m, l3) =>
  match expectChar '-' l3 with
  | none => none
  | some l4 =>
  match parse2 l4 with
  | none => none
  | some (d, l5) =>
    if ¬ (1 ≤ y ∧ 1 ≤ m ∧ m ≤ 12 ∧ 1 ≤ d ∧ d ≤ daysInMonth y m) then none
    else
      match l5 with
      | [] => some ⟨pyStampD y m d, none⟩
      | _sep :: lt =>
        match parseTime lt with
        | none => none
        | some (tus, l6) =>
          match l6 with
          | [] => some ⟨pyStampD y m d + (tus : Int), none⟩
          | _ =>
            match parseTz l6 with
            | some (ofs, []) => some ⟨pyStampD y m d + (tus : Int), some ofs⟩
            | _ => none

/-- Python `<` on datetimes: `none` models the `TypeError` raised on a
naive/aware comparison. -/
def pyLt (a b : PyDatetime) : Option Bool :=
  match a.off, b.off with
  | none, none => some (decide (a.stamp < b.stamp))
  | some x, some y => some (decide (a.stamp - x < b.stamp - y))
  | _, _ => none

/-- Python `<=` on datetimes. -/
def pyLe (a b : PyDatetime) : Option Bool :=
  match a.off, b.off with
  | none, none => some (decide (a.stamp ≤ b.stamp))
  | some x, some y => some (decide (a.stamp - x ≤ b.stamp - y))
  | _, _ => none

/-- Python `>` on datetimes. -/
def pyGt (a b : PyDatetime) : Option Bool :=
  match a.off, b.off with
  | none, none => some (decide (b.stamp < a.stamp))
  | some x, some y => some (decide (b.stamp - y < a.stamp - x))
  | _, _ => none

/- ===================== determine_status_from_iso (scraper.py 191-210) ===== -/

/-- `s = datetime.fromisoformat(x.replace("Z", "+00:00")) if x else None`:
the outer `none` models the `ValueError` escaping to the blanket
`except`, the inner `Option` the `s = None` case (`x` absent or empty,
both falsy). -/
def parseOptIso (o : Option String) : Option (Option PyDatetime) :=
  match o with
  | none => some none
  | some t =>
    if t = "" then some none
    else
      match fromisoformat (pyReplace t.data "Z".data "+00:00".data) with
      | some dt => some (some dt)
      | none => none

/-- `if e and now > e: return "ended"` followed by the final
`return "upcoming"`. -/
def statusThird (now : PyDatetime) (e : Option PyDatetime) : Option String :=
  match e with
  | some ed =>
    match pyGt now ed with
    | none => none
    | some true => some "ended"
    | some false => some "upcoming"
  | none => some "upcoming"

/-- `if s and e and s <= now <= e: return "running"` (chained comparison:
`s <= now` first, short-circuiting), falling through to the third test. -/
def statusSecond (now sd : PyDatetime) (e : Option PyDatetime) : Option String :=
  match e with
  | some ed =>
    match pyLe sd now with
    | none => none
    | some false => statusThird now (some ed)
    | some true =>
      match pyLe now ed with
      | none => none
      | some true => some "running"
      | some false => statusThird now (some ed)
  | none => statusThird now none

/-- The three `if` tests of `determine_status_from_iso`; `none` models an
exception reaching the blanket `except`. -/
def statusTry (now : PyDatetime) (s e : Option PyDatetime) : Option String :=
  match s with
  | some sd =>
    match pyLt now sd with
    | none => none
    | some true => some "upcoming"
    | some false => statusSecond now sd e
  | none => statusThird now e

/-- The body of the `try` block: parse `start_iso`, parse `end_iso`, then
run the decision chain. -/
def statusExc (now : Int) (start_iso end_iso : Option String) : Option String :=
  match parseOptIso start_iso with
  | none => none
  | some s =>
    match parseOptIso end_iso with
    | none => none
    | some e => statusTry ⟨now, none⟩ s e

/-- `determine_status_from_iso` (scraper.py 191-210).  `now` is the naive
`datetime.utcnow()` value, passed explicitly as a microsecond timestamp;
any exception inside the `try` collapses to `"upcoming"`. -/
def determine_status_from_iso (now : Int) (start_iso end_iso : Option String) : String :=
  match statusExc now start_iso end_iso with
  | some r => r
  | none => "upcoming"

/-- Rule 1 guard of the spec's decision order: start present and in the
future. -/
def beforeStartB (now : Int) (sa : Option Int) : Bool :=
  match sa with
  | some s => decide (now < s)
  | none => false

/-- Rule 2 guard: both present and `start ≤ now ≤ end`. -/
def runningB (now : Int) (sa sb : Option Int) : Bool :=
  match sa, sb with
  | some s, some e => decide (s ≤ now) && decide (now ≤ e)
  | _, _ => false

/-- Rule 3 guard: end present and in the past. -/
def afterEndB (now : Int) (sb : Option Int) : Bool :=
  match sb with
  | some e => decide (e < now)
  | none => false

/-- The decision table of spec section 4.4 over already-parsed values,
used to state what the code computes on offset-naive input. -/
def statusSpecTable (now : Int) (sa sb : Option Int) : String :=
  if beforeStartB now sa then "upcoming"
  else if runningB now sa sb then "running"
  else if afterEndB now sb then "ended"
  else "upcoming"

/-- `start_iso` is absent/empty, or parses to an offset-naive datetime with
the given timestamp. -/
abbrev parsedNaive (a : Option String) (sa : Option Int) : Prop :=
  parseOptIso a = some (sa.map fun v => PyDatetime.mk v none)

example : determine_status_from_iso (pyStampD 2024 6 1) none none = "upcoming" := by decide
example : determine_status_from_iso (pyStampD 2024 6 1)
    (some "2030-01-01T00:00:00") none = "upcoming" := by decide
example : determine_status_from_iso (pyStampD 2024 6 1)
    (some "2020-01-01T00:00:00") (some "2030-01-01T00:00:00") = "running" := by decide
example : determine_status_from_iso (pyStampD 2024 6 1)
    none (some "2020-01-01T00:00:00") = "ended" := by decide
example : determine_status_from_iso (pyStampD 2024 6 1)
    (some "2010-01-01T00:00:00") (some "2020-01-01T00:00:00") = "ended" := by decide
example : determine_status_from_iso (pyStampD 2024 6 1)
    (some "2020-01-01T00:00:00Z") (some "2030-01-01T00:00:00Z") = "upcoming" := by decide
example : determine_status_from_iso (pyStampD 2024 6 1)
    (some "garbage") (some "2020-01-01T00:00:00") = "upcoming" := by decide

/- ===================== urllib.parse model =====================
`slug_from_url` (scraper.py 19-23) uses `urlparse`, and `normalize_url`
(scraper.py 25-26) uses `urljoin`.  The definitions below follow CPython's
`urllib.parse` (`urlsplit` sanitisation, scheme/netloc/fragment/query
splitting, `;params` splitting, and the `urljoin` segment resolution).
The `ValueError`s CPython raises for bracketed IPv6 hosts are not modelled
(no claim depends on them; the one caller wraps `urljoin` in a blanket
`except`). -/

/-- `_WHATWG_C0_CONTROL_OR_SPACE`. -/
def c0OrSpace (c : Char) : Bool := c.toNat ≤ 32

/-- `_UNSAFE_URL_BYTES_TO_REMOVE`. -/
def unsafeUrlByte (c : Char) : Bool := c = '\t' || c = '\r' || c = '\n'

/-- `scheme_chars`. -/
def schemeChar (c : Char) : Bool :=
  c.isAlpha || c.isDigit || c = '+' || c = '-' || c = '.'

def headIsAlpha : List Char → Bool
  | c :: _ => c.isAlpha
  | [] => false

/-- Index of the first character satisfying `p`. -/
def idxOfP? (p : Char → Bool) : List Char → Option Nat
  | [] => none
  | c :: rest =>
    if p c then some 0
    else
      match idxOfP? p rest with
      | some i => some (i + 1)
      | none => none

def idxOf? (c : Char) (l : List Char) : Option Nat := idxOfP? (fun x => x = c) l

/-- Python `s.find(c, start)` (as an `Option`). -/
def idxOfFrom? (c : Char) (l : List Char) (start : Nat) : Option Nat :=
  match idxOf? c (l.drop start) with
  | some i => some (start + i)
  | none => none

/-- Python `s.rfind(c)` (as an `Option`). -/
def lastIdxOf? (c : Char) (l : List Char) : Option Nat :=
  match idxOf? c l.reverse with
  | some i => some (l.length - 1 - i)
  | none => none

structure SplitRes where
  scheme : List Char
  netloc : List Char
  path : List Char
  query : List Char
  fragment : List Char
deriving DecidableEq, Repr

instance {ε α : Type} [DecidableEq ε] [DecidableEq α] :
    DecidableEq (Except ε α) := fun a b =>
  match a, b with
  | Except.error e1, Except.error e2 => decidable_of_iff (e1 = e2) (by simp)
  | Except.ok x, Except.ok y => decidable_of_iff (x = y) (by simp)
  | Except.error _, Except.ok _ => isFalse (fun hc => Except.noConfusion hc)
  | Except.ok _, Except.error _ => isFalse (fun hc => Except.noConfusion hc)

/-- The `ValueError("Invalid IPv6 URL")` condition of `urlsplit`: the
netloc contains `'['` without `']'` or vice versa. -/
def bracketMismatch (netloc : List Char) : Bool :=
  (netloc.contains '[' && !netloc.contains ']') ||
    (netloc.contains ']' && !netloc.contains '[')

/-- `urlsplit(url, scheme)` with `allow_fragments=True`, following CPython
3.11: `Except.error` is the `ValueError("Invalid IPv6 URL")` raised right
after netloc extraction when its square brackets are mismatched.  The
error paths added by later security releases (content validation of a
well-bracketed host) and the NFKC netloc check (which can only fire on
non-ASCII input) are outside this model. -/
def urlsplitL (url0 dflt0 : List Char) : Except String SplitRes :=
  let u1 := (lstripP c0OrSpace url0).filter (fun c => !unsafeUrlByte c)
  let dflt := ((rstripP c0OrSpace (lstripP c0OrSpace dflt0))).filter
    (fun c => !unsafeUrlByte c)
  let schemeUrl :=
    match idxOf? ':' u1 with
    | some i =>
      if decide (0 < i) && headIsAlpha u1 && (u1.take i).all schemeChar then
        ((u1.take i).map lowAsc, u1.drop (i + 1))
      else (dflt, u1)
    | none => (dflt, u1)
  let u2 := schemeUrl.2
  let netlocUrl :=
    if u2.take 2 = ['/', '/'] then
      let rest := u2.drop 2
      match idxOfP? (fun c => c = '/' || c = '?' || c = '#') rest with
      | some j => (rest.take j, rest.drop j)
      | none => (rest, ([] : List Char))
    else (([] : List Char), u2)
  if bracketMismatch netlocUrl.1 then Except.error "Invalid IPv6 URL"
  else
    let u3 := netlocUrl.2
    let urlFrag :=
      match idxOf? '#' u3 with
      | some k => (u3.take k, u3.drop (k + 1))
      | none => (u3, ([] : List Char))
    let u4 := urlFrag.1
    let pathQuery :=
      match idxOf? '?' u4 with
      | some k => (u4.take k, u4.drop (k + 1))
      | none => (u4, ([] : List Char))
    Except.ok ⟨schemeUrl.1, netlocUrl.1, pathQuery.1, pathQuery.2, urlFrag.2⟩

structure ParseRes where
  scheme : List Char
  netloc : List Char
  path : List Char
  params : List Char
  query : List Char
  fragment : List Char
deriving DecidableEq, Repr

def uses_params : List (List Char) :=
  [[], "ftp".data, "hdl".data, "prospero".data, "http".data, "imap".data,
   "https".data, "shttp".data, "rtsp".data, "rtspu".data, "sip".data,
   "sips".data, "mms".data, "sftp".data, "tel".data]

def uses_relative : List (List Char) :=
  [[], "ftp".data, "http".data, "gopher".data, "nntp".data, "imap".data,
   "wais".data, "file".data, "https".data, "shttp".data, "mms".data,
   "prospero".data, "rtsp".data, "rtspu".data, "sftp".data, "svn".data,
   "svn+ssh".data, "ws".data, "wss".data]

def uses_netloc : List (List Char) :=
  [[], "ftp".data, "http".data, "gopher".data, "nntp".data, "telnet".data,
   "imap".data, "wais".data, "file".data, "mms".data, "https".data,
   "shttp".data, "snews".data, "prospero".data, "rtsp".data, "rtspu".data,
   "rsync".data, "svn".data, "svn+ssh".data, "sftp".data, "nfs".data,
   "git".data, "git+ssh".data, "ws".data, "wss".data, "itms-services".data]

/-- `_splitparams`. -/
def splitparamsL (path : List Char) : List Char × List Char :=
  match lastIdxOf? '/' path with
  | some s =>
    match idxOfFrom? ';' path s with
    | some i => (path.take i, path.drop (i + 1))
    | none => (path, [])
  | none =>
    match idxOf? ';' path with
    | some i => (path.take i, path.drop (i + 1))
    | none => (path, [])

/-- `urlparse(url, scheme)` with `allow_fragments=True`; `urlsplit`'s
`ValueError` propagates. -/
def urlparseL (url dflt : List Char) : Except String ParseRes :=
  match urlsplitL url dflt with
  | Except.error e => Except.error e
  | Except.ok s =>
    if s.scheme ∈ uses_params ∧ s.path.contains ';' then
      let pp := splitparamsL s.path
      Except.ok ⟨s.scheme, s.netloc, pp.1, pp.2, s.query, s.fragment⟩
    else Except.ok ⟨s.scheme, s.netloc, s.path, [], s.query, s.fragment⟩

/-- `urlunsplit`. -/
def urlunsplitL (scheme netloc url query fragment : List Char) : List Char :=
  let url1 :=
    if netloc ≠ [] ∨ url.take 2 = ['/', '/'] then
      let u := if url ≠ [] ∧ url.take 1 ≠ ['/'] then '/' :: url else url
      '/' :: '/' :: (netloc ++ u)
    else url
  let url2 := if scheme ≠ [] then scheme ++ ':' :: url1 else url1
  let url3 := if query ≠ [] then url2 ++ '?' :: query else url2
  if fragment ≠ [] then url3 ++ '#' :: fragment else url3

/-- `urlunparse`. -/
def urlunparseL (r : ParseRes) : List Char :=
  let u := if r.params ≠ [] then r.path ++ ';' :: r.params else r.path
  urlunsplitL r.scheme r.netloc u r.query r.fragment

/-- `segments[1:-1] = filter(None, segments[1:-1])`. -/
def filterMiddle (segs : List (List Char)) : List (List Char) :=
  match segs with
  | [] => []
  | [a] => [a]
  | a :: rest =>
    a :: ((rest.dropLast.filter (fun s => !s.isEmpty)) ++ [rest.getLastD []])

/-- The `for seg in segments` dot-segment resolution of `urljoin`. -/
def resolveSegs (segs : List (List Char)) : List (List Char) :=
  let r := segs.foldl
    (fun acc seg =>
      if seg = ['.', '.'] then acc.dropLast
      else if seg = ['.'] then acc
      else acc ++ [seg])
    []
  if segs.getLastD [] = ['.', '.'] ∨ segs.getLastD [] = ['.'] then r ++ [[]]
  else r

/-- `urljoin(base, url)`; the `ValueError` of either `urlparse` call
propagates. -/
def urljoin (base url : String) : Except String String :=
  if base = "" then Except.ok url
  else if url = "" then Except.ok base
  else
    match urlparseL base.data [] with
    | Except.error e => Except.error e
    | Except.ok b =>
    match urlparseL url.data b.scheme with
    | Except.error e => Except.error e
    | Except.ok t =>
      if ¬ (t.scheme = b.scheme ∧ t.scheme ∈ uses_relative) then Except.ok url
      else
        let netloc0 :=
          if t.scheme ∈ uses_netloc then
            (if t.netloc ≠ [] then t.netloc else b.netloc)
          else t.netloc
        if t.scheme ∈ uses_netloc ∧ t.netloc ≠ [] then
          Except.ok (String.mk
            (urlunparseL ⟨t.scheme, t.netloc, t.path, t.params, t.query, t.fragment⟩))
        else if t.path = [] ∧ t.params = [] then
          Except.ok (String.mk (urlunparseL ⟨t.scheme, netloc0, b.path, b.params,
            (if t.query = [] then b.query else t.query), t.fragment⟩))
        else
          let baseParts0 := splitChar '/' b.path
          let baseParts :=
            if baseParts0.getLastD [] ≠ [] then baseParts0.dropLast else baseParts0
          let segments :=
            if t.path.take 1 = ['/'] then splitChar '/' t.path
            else filterMiddle (baseParts ++ splitChar '/' t.path)
          let joined := List.intercalate ['/'] (resolveSegs segments)
          let finalPath := if joined = [] then ['/'] else joined
          Except.ok (String.mk
            (urlunparseL ⟨t.scheme, netloc0, finalPath, t.params, t.query, t.fragment⟩))

/-- `normalize_url` (scraper.py 25-26): `urljoin`, exceptions included. -/
def normalize_url (base href : String) : Except String String := urljoin base href

/-- `slug_from_url` (scraper.py 19-23), exceptions included: `urlparse`'s
`ValueError` propagates to the caller.  The source calls `urlparse(url)`
twice; both calls are pure and identical, so one parse is performed. -/
def slug_from_urlE (url : String) : Except String String :=
  match urlparseL url.data [] with
  | Except.error e => Except.error e
  | Except.ok pr =>
    if rstripP (fun c => c = '/') pr.path = [] ∨
        rstripP (fun c => c = '/') pr.path = ['/'] then
      Except.ok (String.mk (pyReplace pr.netloc ['.'] ['-']))
    else
      Except.ok (String.mk
        ((splitChar '/' (rstripP (fun c => c = '/') pr.path)).getLastD []))

/-- The value of `slug_from_url` on inputs where `urlparse` does not
raise.  On a raising input the Python function has no value (the
orchestrator's per-item `except` skips the item, scraper.py 349-350); the
`""` of that branch is only a placeholder and is never produced by the
Python code. -/
def slug_from_url (url : String) : String :=
  match slug_from_urlE url with
  | Except.ok s => s
  | Except.error _ => ""

example : slug_from_url "https://devpost.com/hackathons" = "hackathons" := by decide
example : slug_from_url "https://devpost.com/" = "devpost-com" := by decide
example : slug_from_url "https://devpost.com" = "devpost-com" := by decide
example : slug_from_url "https://devpost.com/software/alpha-2" = "alpha-2" := by decide
example : slug_from_urlE "http://[abc/path" = Except.error "Invalid IPv6 URL" := by decide
example : urljoin "https://devpost.com/hackathons" "/sw/x" =
  Except.ok "https://devpost.com/sw/x" := by decide
example : urljoin "https://devpost.com/hackathons" "sw/x" =
  Except.ok "https://devpost.com/sw/x" := by decide
example : urljoin "https://devpost.com/hackathons" "https://other.org/a" =
  Except.ok "https://other.org/a" := by decide
example : urljoin "https://devpost.com/hackathons" "../a/./b" =
  Except.ok "https://devpost.com/a/b" := by decide

/- ===================== DOM model =====================
`extract_listing_items` (scraper.py 29-142) consumes a loaded page through
the Playwright element API.  The page is modelled as an element tree; an
element handle is a path (child indices) from the root, so that the
`el => el.parentElement` walks of the source are path manipulations.
`query_selector` on an element searches its strict descendants in document
order; a page-level query also includes the root. -/

inductive Node where
  | text (s : String)
  | elem (tag : String) (attrs : List (String × String)) (kids : List Node)

def alookup : List (String × String) → String → Option String
  | [], _ => none
  | (k0, v) :: rest, k => if k0 = k then some v else alookup rest k

/-- `get_attribute`. -/
def attrOf (n : Node) (k : String) : Option String :=
  match n with
  | .text _ => none
  | .elem _ attrs _ => alookup attrs k

/- `text_content()`: concatenation of all text below the node. -/
mutual
def textContent : Node → String
  | .text s => s
  | .elem _ _ kids => textContentL kids
def textContentL : List Node → String
  | [] => ""
  | k :: ks => textContent k ++ textContentL ks
end

/- Strict descendants, in document (pre-)order. -/
mutual
def descendants : Node → List Node
  | .text _ => []
  | .elem _ _ kids => descList kids
def descList : List Node → List Node
  | [] => []
  | k :: ks => k :: (descendants k ++ descList ks)
end

/- All nodes of the subtree with their paths, in document order. -/
mutual
def subWithPath : Node → List Nat → List (List Nat × Node)
  | .text s, p => [(p, Node.text s)]
  | .elem t a ks, p => (p, Node.elem t a ks) :: kidsWithPath ks p 0
def kidsWithPath : List Node → List Nat → Nat → List (List Nat × Node)
  | [], _, _ => []
  | k :: ks, p, i => subWithPath k (p ++ [i]) ++ kidsWithPath ks p (i + 1)
end

/-- Node at a path. -/
def getNode : List Nat → Node → Option Node
  | [], n => some n
  | _ :: _, .text _ => none
  | i :: rest, .elem _ _ ks =>
    match ks.get? i with
    | some k => getNode rest k
    | none => none

/-- `element.query_selector(sel)`: first matching strict descendant. -/
def queryDesc (n : Node) (p : Node → Bool) : Option Node := (descendants n).find? p

/-- The whole document, root included (page-level queries). -/
def pageAll (root : Node) : List Node := root :: descendants root

/-- Generic split on a character class. -/
def splitP (p : Char → Bool) : List Char → List (List Char)
  | [] => [[]]
  | c :: rest =>
    if p c then [] :: splitP p rest
    else
      match splitP p rest with
      | [] => [[c]]
      | g :: gs => (c :: g) :: gs

/-- CSS class selector: the `class` attribute, split on whitespace,
contains the token. -/
def hasClassToken (n : Node) (cls : String) : Bool :=
  match attrOf n "class" with
  | some v => ((splitP isPyWs v.data).filter (fun s => !s.isEmpty)).contains cls.data
  | none => false

/-- `h3[data-v-64e017b4]`. -/
def isH3Marker (n : Node) : Bool :=
  match n with
  | .elem t attrs _ => t == "h3" && (alookup attrs "data-v-64e017b4").isSome
  | .text _ => false

/-- `a`. -/
def isAnchor (n : Node) : Bool :=
  match n with
  | .elem t _ _ => t == "a"
  | .text _ => false

/-- `a[href]`. -/
def isAnchorHref (n : Node) : Bool :=
  match n with
  | .elem t attrs _ => t == "a" && (alookup attrs "href").isSome
  | .text _ => false

/-- `div.submission-period`. -/
def isSPDiv (n : Node) : Bool :=
  match n with
  | .elem t _ _ => t == "div" && hasClassToken n "submission-period"
  | .text _ => false

/-- `[data-iso-date]`. -/
def isIsoDateEl (n : Node) : Bool :=
  match n with
  | .elem _ attrs _ => (alookup attrs "data-iso-date").isSome
  | .text _ => false

/-- `td[data-iso-date]`. -/
def isTdIso (n : Node) : Bool :=
  match n with
  | .elem t attrs _ => t == "td" && (alookup attrs "data-iso-date").isSome
  | .text _ => false

/-- `h1`. -/
def isH1 (n : Node) : Bool :=
  match n with
  | .elem t _ _ => t == "h1"
  | .text _ => false

/-- Python truthiness of an `Optional[str]` (`None` and `""` are falsy). -/
def pyTruthy (o : Option String) : Bool :=
  match o with
  | some s => s ≠ ""
  | none => false

/- ===================== extract_listing_items (scraper.py 29-142) ===== -/

/-- The `for _ in range(4)` parent walk looking for an ancestor that
contains an anchor (scraper.py 56-69): on finding one, the result is that
anchor's `href` attribute (which may itself be absent). -/
def anchorWalk (root : Node) : Nat → List Nat → Option String
  | 0, _ => none
  | fuel + 1, p =>
    if p.isEmpty then none
    else
      let pp := p.dropLast
      match getNode pp root with
      | none => none
      | some par =>
        match queryDesc par isAnchor with
        | some a => attrOf a "href"
        | none => anchorWalk root fuel pp

/-- Anchor strategy A (scraper.py 50-71): child anchor of the heading if
one exists (its `href`, possibly absent), else the bounded ancestor walk. -/
def stageA (root h3 : Node) (p : List Nat) : Option String :=
  match queryDesc h3 isAnchor with
  | some a => attrOf a "href"
  | none => anchorWalk root 4 p

/-- The final `href` value for a heading after all strategies
(scraper.py 50-80): strategy A, then — when the result is falsy — the
`a[href]` subtree fallback. -/
def findHrefRaw (root : Node) (p : List Nat) : Option String :=
  match getNode p root with
  | none => none
  | some h3 =>
    let a := stageA root h3 p
    if pyTruthy a then a
    else
      match queryDesc h3 isAnchorHref with
      | some an => attrOf an "href"
      | none => a

/-- URL normalisation (scraper.py 85-91): protocol-relative upgrade, then
`urljoin` against the page URL; the `except` of the source falls back to
the (already upgraded) `href` when `urljoin` raises. -/
def resolveUrl (pageUrl href : String) : String :=
  let h2 := if href.data.take 2 = ['/', '/'] then "https:" ++ href else href
  match normalize_url pageUrl h2 with
  | Except.ok u => u
  | Except.error _ => h2

/-- The `for _ in range(6)` parent walk looking for an ancestor containing
a `div.submission-period` (scraper.py 101-119). -/
def spWalk (root : Node) : Nat → List Nat → Option Node
  | 0, _ => none
  | fuel + 1, p =>
    if p.isEmpty then none
    else
      let pp := p.dropLast
      match getNode pp root with
      | none => none
      | some par =>
        match queryDesc par isSPDiv with
        | some sp => some sp
        | none => spWalk root fuel pp

structure ListingItem where
  title : String
  url : String
  submission_period : Option String
  begins_iso : Option String
  ends_iso : Option String
deriving DecidableEq, Repr

/-- Assemble one accepted entry (scraper.py 44-48, 97-140): title text,
resolved URL, and the submission-period data found near the heading. -/
def mkItem (root : Node) (p : List Nat) (url : String) : ListingItem :=
  let h3 := (getNode p root).getD (Node.text "")
  let title := String.mk (pyStrip (textContent h3).data)
  match spWalk root 6 p with
  | none => ⟨title, url, none, none, none⟩
  | some sp =>
    let stext := String.mk (pyStrip (textContent sp).data)
    let dates := (descendants sp).filter isIsoDateEl
    let b :=
      match dates.get? 0 with
      | some n => attrOf n "data-iso-date"
      | none => none
    let e :=
      match dates.get? 1 with
      | some n => attrOf n "data-iso-date"
      | none => none
    ⟨title, url, some stext, b, e⟩

/-- The headings matched by `page.query_selector_all("h3[data-v-64e017b4]")`. -/
def h3Paths (root : Node) : List (List Nat) :=
  ((subWithPath root []).filter (fun pn => isH3Marker pn.2)).map (fun pn => pn.1)

/-- The main `for h3 in h3_nodes` loop with its `seen` set
(scraper.py 43-140). -/
def extractGo (root : Node) (pageUrl : String) :
    List (List Nat) → List String → List ListingItem
  | [], _ => []
  | p :: ps, seen =>
    if !pyTruthy (findHrefRaw root p) then extractGo root pageUrl ps seen
    else
      let url := resolveUrl pageUrl ((findHrefRaw root p).getD "")
      if url = "" ∨ seen.contains url then extractGo root pageUrl ps seen
      else mkItem root p url :: extractGo root pageUrl ps (url :: seen)

/-- `extract_listing_items` (scraper.py 29-142). -/
def extract_listing_items (root : Node) (pageUrl : String) : List ListingItem :=
  extractGo root pageUrl (h3Paths root) []

/- ===================== orchestrator per-item assembly =====================
`scrape_all_from_listing` (scraper.py 258-365): after the listing pass,
each entry is optionally enriched from its detail page and assembled into
the persisted document.  `detail = none` covers both a falsy entry URL
(no detail navigation, scraper.py 291) and a navigation timeout
(enrichment skipped, scraper.py 313-314). -/

structure Doc where
  id : String
  name : String
  submission_period : Option String
  status : String
deriving DecidableEq, Repr

/-- Title override from the detail page `<h1>` (scraper.py 296-303). -/
def enrichName (d : Node) (name : String) : String :=
  match (pageAll d).find? isH1 with
  | some h1 =>
    let t := String.mk (pyStrip (textContent h1).data)
    if t ≠ "" then t else name
  | none => name

/-- Date override from detail-page `td[data-iso-date]` cells
(scraper.py 304-312): `x.get_attribute(...) or previous`. -/
def enrichDates (d : Node) (begins ends : Option String) :
    Option String × Option String :=
  let tds := (pageAll d).filter isTdIso
  let b :=
    match tds.get? 0 with
    | some td =>
      match attrOf td "data-iso-date" with
      | some v => if v ≠ "" then some v else begins
      | none => begins
    | none => begins
  let e :=
    match tds.get? 1 with
    | some td =>
      match attrOf td "data-iso-date" with
      | some v => if v ≠ "" then some v else ends
      | none => ends
    | none => ends
  (b, e)

/-- The submission-period fallback (scraper.py 322-329): join whichever of
the ISO timestamps are truthy, `None` when both are absent. -/
def joinIsoParts (b e : Option String) : Option String :=
  let parts :=
    (if pyTruthy b then [b.getD ""] else []) ++
    (if pyTruthy e then [e.getD ""] else [])
  match parts with
  | [] => none
  | _ => some (String.intercalate " — " parts)

/-- Document assembly for one listing entry (scraper.py 282-337). -/
def assemble_doc (now : Int) (it : ListingItem) (detail : Option Node) : Doc :=
  let enriched :=
    if it.url ≠ "" then
      match detail with
      | some d => (enrichName d it.title, enrichDates d it.begins_iso it.ends_iso)
      | none => (it.title, (it.begins_iso, it.ends_iso))
    else (it.title, (it.begins_iso, it.ends_iso))
  let name := enriched.1
  let begins := enriched.2.1
  let ends := enriched.2.2
  let sp :=
    if pyTruthy it.submission_period then it.submission_period
    else joinIsoParts begins ends
  { id := if it.url ≠ "" then slug_from_url it.url else name,
    name := name,
    submission_period := sp,
    status := determine_status_from_iso now begins ends }

/- ===================== db.py model =====================
Module state of `scraper/db.py`: the configured names and the cached
client.  The external Mongo collection contents and a counter of
operations actually sent to the server are carried alongside so that
"the store is never contacted" is expressible; `reachable` makes the
environment (server up or down) explicit.  The cached client remembers
the URI it was created with (db.py 36). -/

abbrev Item := List (String × String)

structure UpdateResult where
  matchedCount : Nat
  modifiedCount : Nat
  didUpsert : Bool
deriving DecidableEq, Repr

inductive DbError where
  | validationError
  | connectionError
deriving DecidableEq, Repr

structure DbState where
  MONGO_URI : String
  MONGO_DB : String
  MONGO_COLLECTION : String
  client : Option String
  store : List Item
  storeOps : Nat
deriving DecidableEq, Repr

/-- `_ensure_client` (db.py 25-47): reuse the cached client, else create
one and ping (one server interaction); on failure the client is closed and
reset to `None` and a `RuntimeError` is raised. -/
def ensure_client (reachable : Bool) (st : DbState) : DbState × Except DbError Unit :=
  match st.client with
  | some _ => (st, Except.ok ())
  | none =>
    if reachable then
      ({ st with client := some st.MONGO_URI, storeOps := st.storeOps + 1 },
       Except.ok ())
    else
      ({ st with storeOps := st.storeOps + 1 }, Except.error DbError.connectionError)

/-- `get_collection` (db.py 49-57). -/
def get_collection (reachable : Bool) (collName : Option String) (st : DbState) :
    DbState × Except DbError String :=
  match ensure_client reachable st with
  | (st1, Except.error e) => (st1, Except.error e)
  | (st1, Except.ok _) =>
    (st1, Except.ok
      (match collName with
       | some c => if c ≠ "" then c else st1.MONGO_COLLECTION
       | none => st1.MONGO_COLLECTION))

/-- `"id" in item and item["id"]` truthy. -/
def idTruthy (item : Item) : Bool :=
  match alookup item "id" with
  | some v => v ≠ ""
  | none => false

/-- `$set` of one field into a document. -/
def setKey : Item → String → String → Item
  | [], k, v => [(k, v)]
  | (k0, v0) :: rest, k, v =>
    if k0 = k then (k0, v) :: rest else (k0, v0) :: setKey rest k v

/-- `$set` of all fields of `upd` into `base`. -/
def setFields (base upd : Item) : Item :=
  upd.foldl (fun acc kv => setKey acc kv.1 kv.2) base

/-- `update_one({"id": idv}, {"$set": item}, upsert=True)`: update the
first matching document, or insert one built from the filter plus the
`$set` fields. -/
def mongoUpdateOne (idv : String) (item : Item) :
    List Item → List Item × UpdateResult
  | [] => ([setFields [("id", idv)] item], ⟨0, 0, true⟩)
  | doc :: rest =>
    if alookup doc "id" = some idv then
      let doc' := setFields doc item
      (doc' :: rest, ⟨1, if doc' = doc then 0 else 1, false⟩)
    else
      let r := mongoUpdateOne idv item rest
      (doc :: r.1, r.2)

/-- `upsert_hackathon` (db.py 59-71).  The `isinstance(item, dict)` guard
cannot fail in the typed embedding. -/
def upsert_hackathon (reachable : Bool) (item : Item) (st : DbState) :
    DbState × Except DbError UpdateResult :=
  if !idTruthy item then (st, Except.error DbError.validationError)
  else
    match get_collection reachable none st with
    | (st1, Except.error e) => (st1, Except.error e)
    | (st1, Except.ok _) =>
      let r := mongoUpdateOne ((alookup item "id").getD "") item st1.store
      ({ st1 with store := r.1, storeOps := st1.storeOps + 1 }, Except.ok r.2)

/-- `set_mongo_uri` (db.py 73-87): a falsy URI is a no-op; otherwise the
configured URI is replaced, the old client closed (a driver-side effect)
and the cache reset to `None`. -/
def set_mongo_uri (uri : String) (st : DbState) : DbState :=
  if uri = "" then st
  else { st with MONGO_URI := uri, client := none }

/- ===================== concrete test pages ===================== -/

/-- A listing in which two structurally distinct headings resolve to the
same URL. -/
def pageTwoDup : Node :=
  Node.elem "html" [] [
    Node.elem "div" [] [
      Node.elem "h3" [("data-v-64e017b4", "")] [
        Node.elem "a" [("href", "https://devpost.com/sw/alpha")] [Node.text "Alpha One"]]],
    Node.elem "div" [] [
      Node.elem "h3" [("data-v-64e017b4", "")] [
        Node.elem "a" [("href", "https://devpost.com/sw/alpha")] [Node.text "Alpha Two"]]]]

/-- A listing with one linked heading and one heading that has no anchor
in its subtree nor within the four-level ancestor walk. -/
def pageOrphan : Node :=
  Node.elem "html" [] [
    Node.elem "div" [] [
      Node.elem "h3" [("data-v-64e017b4", "")] [
        Node.elem "a" [("href", "/sw/beta")] [Node.text "Beta"]]],
    Node.elem "div" [] [
      Node.elem "div" [] [
        Node.elem "div" [] [
          Node.elem "div" [] [
            Node.elem "div" [] [
              Node.elem "h3" [("data-v-64e017b4", "")] [Node.text "Orphan"]]]]]]]

/-- A page without any marked heading. -/
def pagePlain : Node :=
  Node.elem "html" [] [Node.elem "p" [] [Node.text "nothing here"]]

def listingUrl : String := "https://devpost.com/hackathons"

example :
    extract_listing_items pageTwoDup listingUrl =
      [⟨"Alpha One", "https://devpost.com/sw/alpha", none, none, none⟩] := by decide
example :
    (extract_listing_items pageOrphan listingUrl).map (fun it => it.title) =
      ["Beta"] := by decide
example :
    (extract_listing_items pageOrphan listingUrl).map (fun it => it.url) =
      ["https://devpost.com/sw/beta"] := by decide
example : extract_listing_items pagePlain listingUrl = [] := by decide

/- ===================== fixed values used by the theorems ===================== -/

/-- A concrete "current time": 2024-06-01 00:00:00 (naive, as
`datetime.utcnow()` produces). -/
def nowMid2024 : Int := pyStampD 2024 6 1

/-- Fresh module state of `db.py` (env defaults, no cached client). -/
def dbState0 : DbState :=
  ⟨"mongodb://localhost:27017", "hackathons", "hack-info", none, [], 0⟩

/-- Module state with a live cached client and some stored documents. -/
def dbState1 : DbState :=
  ⟨"mongodb://localhost:27017", "hackathons", "hack-info",
   some "mongodb://localhost:27017", [[("id", "abc"), ("name", "X")]], 3⟩

/-- The detail page supplies no overriding title: either no `<h1>`, or one
whose stripped text is empty (scraper.py 296-303 then keeps `name`). -/
def noH1Override (d : Node) : Prop :=
  match (pageAll d).find? isH1 with
  | none => True
  | some h1 => pyStrip (textContent h1).data = []

/-- The detail page supplies no overriding data (C7's scenario): absent
page (falsy URL or navigation timeout) or a page with no date cells and no
overriding `<h1>`. -/
def noDetailOverride : Option Node → Prop
  | none => True
  | some d => (pageAll d).filter isTdIso = [] ∧ noH1Override d

/- ============================================================
   Lemmas and claim theorems
   ============================================================ -/

lemma dropWhile_head_false (p : Char → Bool) :
    ∀ (l : List Char) (a : Char) (t : List Char),
      l.dropWhile p = a :: t → p a = false := by
  intro l
  induction l with
  | nil => intro a t h; simp [List.dropWhile] at h
  | cons c rest ih =>
    intro a t h
    cases hc : p c with
    | true => rw [List.dropWhile_cons, if_pos (by simp [hc])] at h; exact ih a t h
    | false => rw [List.dropWhile_cons, if_neg (by simp [hc])] at h
               cases h; exact hc

lemma dropWhile_append_last (p : Char → Bool) (h : Char) (hh : p h = false) :
    ∀ l : List Char, ∃ r, (l ++ [h]).dropWhile p = r ++ [h] := by
  intro l
  induction l with
  | nil => exact ⟨[], by simp [List.dropWhile, hh]⟩
  | cons c rest ih =>
    cases hc : p c with
    | true => simpa [List.dropWhile_cons, hc] using ih
    | false => exact ⟨c :: rest, by simp [List.dropWhile_cons, hc]⟩

lemma lstrip_noop (p : Char → Bool) (l : List Char)
    (h : ∀ a t, l = a :: t → p a = false) : l.dropWhile p = l := by
  rcases l with _ | ⟨a, t⟩
  · rfl
  · simp [List.dropWhile_cons, h a t rfl]

lemma rstrip_noop (p : Char → Bool) (l : List Char)
    (h : ∀ a t, l.reverse = a :: t → p a = false) : rstripP p l = l := by
  unfold rstripP
  rw [lstrip_noop p l.reverse h, List.reverse_reverse]

/-- If a list has a non-`p` head, then right-stripping its left-strip
still has a non-`p` head. -/
lemma revdrop_head (p : Char → Bool) (A : List Char)
    (hA : ∀ a t, A = a :: t → p a = false) :
    ∀ a t, (A.reverse.dropWhile p).reverse = a :: t → p a = false := by
  rcases A with _ | ⟨x, xs⟩
  · intro a t h; simp at h
  · have hx : p x = false := hA x xs rfl
    obtain ⟨r, hr⟩ := dropWhile_append_last p x hx xs.reverse
    intro a t h
    rw [List.reverse_cons, hr] at h
    have h2 : x :: r.reverse = a :: t := by
      rw [List.reverse_append] at h
      simpa using h
    cases h2
    exact hx

lemma pyStrip_idem (l : List Char) : pyStrip (pyStrip l) = pyStrip l := by
  have hA : ∀ a t, lstripP isPyWs l = a :: t → isPyWs a = false :=
    fun a t h => dropWhile_head_false _ _ _ _ h
  have h1 : lstripP isPyWs (pyStrip l) = pyStrip l :=
    lstrip_noop _ _ (fun a t h => revdrop_head isPyWs (lstripP isPyWs l) hA a t h)
  have h2 : rstripP isPyWs (pyStrip l) = pyStrip l := by
    refine rstrip_noop _ _ ?_
    intro a t h
    have h3 : (lstripP isPyWs l).reverse.dropWhile isPyWs = a :: t := by
      have hrr : (pyStrip l).reverse = (lstripP isPyWs l).reverse.dropWhile isPyWs := by
        unfold pyStrip rstripP
        exact List.reverse_reverse _
      rw [hrr] at h
      exact h
    exact dropWhile_head_false _ _ _ _ h3
  show rstripP isPyWs (lstripP isPyWs (pyStrip l)) = pyStrip l
  rw [h1, h2]

/-- C3: `upsert_hackathon` on a record whose `id` is missing or empty
(e.g. the empty dict) raises the validation error before any store
operation: the returned state — store contents and operation counter
included — is exactly the input state.  With a present, non-empty `id`
the result is never the validation error. -/
theorem upsert_validation_guard :
    (∀ (reachable : Bool) (st : DbState) (item : Item), idTruthy item = false →
       upsert_hackathon reachable item st = (st, Except.error DbError.validationError)) ∧
    (∀ (reachable : Bool) (st : DbState) (item : Item), idTruthy item = true →
       (upsert_hackathon reachable item st).2 ≠ Except.error DbError.validationError) := by
  constructor
  · intro reachable st item h
    simp [upsert_hackathon, h]
  · intro reachable st item h
    unfold upsert_hackathon
    rw [h]
    simp only [Bool.not_true, Bool.false_eq_true, if_false]
    unfold get_collection ensure_client
    rcases hc : st.client with _ | cl
    · cases reachable <;> simp
    · simp

/-- Witness for C3 at concrete inputs: the empty record is rejected with
the state untouched, a record with `id = "abc"` is not. -/
theorem upsert_validation_guard_witness :
    upsert_hackathon true ([] : Item) dbState0 =
      (dbState0, Except.error DbError.validationError) ∧
    (upsert_hackathon true [("id", "abc"), ("name", "X")] dbState0).2 ≠
      Except.error DbError.validationError :=
  ⟨upsert_validation_guard.1 true dbState0 [] (by decide),
   upsert_validation_guard.2 true dbState0 [("id", "abc"), ("name", "X")] (by decide)⟩

/-- C8: `set_mongo_uri` with an empty (falsy) URI changes nothing; with a
non-empty URI it replaces `MONGO_URI`, resets the cached client to
`None`, and leaves every other piece of module state unchanged, so the
next `_ensure_client` connects against the new target. -/
theorem set_mongo_uri_spec :
    (∀ st : DbState, set_mongo_uri "" st = st) ∧
    (∀ (uri : String) (st : DbState), uri ≠ "" →
       set_mongo_uri uri st = { st with MONGO_URI := uri, client := none }) ∧
    (∀ (uri : String) (st : DbState), uri ≠ "" →
       (ensure_client true (set_mongo_uri uri st)).1.client = some uri) := by
  refine ⟨fun st => by simp [set_mongo_uri], fun uri st h => by simp [set_mongo_uri, h],
    fun uri st h => by simp [set_mongo_uri, ensure_client, h]⟩

/-- Witness for C8 at a concrete URI and a state with a live client. -/
theorem set_mongo_uri_spec_witness :
    set_mongo_uri "" dbState1 = dbState1 ∧
    set_mongo_uri "mongodb://db.example.com:27017" dbState1 =
      { dbState1 with MONGO_URI := "mongodb://db.example.com:27017", client := none } ∧
    (ensure_client true (set_mongo_uri "mongodb://db.example.com:27017" dbState1)).1.client =
      some "mongodb://db.example.com:27017" :=
  ⟨set_mongo_uri_spec.1 dbState1,
   set_mongo_uri_spec.2.1 "mongodb://db.example.com:27017" dbState1 (by decide),
   set_mongo_uri_spec.2.2 "mongodb://db.example.com:27017" dbState1 (by decide)⟩

lemma statusThird_cases (now : PyDatetime) (e : Option PyDatetime) :
    statusThird now e = none ∨ statusThird now e = some "upcoming" ∨
      statusThird now e = some "ended" := by
  rcases e with _ | ed
  · simp [statusThird]
  · rcases hg : pyGt now ed with _ | bv
    · simp [statusThird, hg]
    · cases bv <;> simp [statusThird, hg]

lemma statusSecond_cases (now sd : PyDatetime) (e : Option PyDatetime) :
    statusSecond now sd e = none ∨ statusSecond now sd e = some "upcoming" ∨
      statusSecond now sd e = some "running" ∨ statusSecond now sd e = some "ended" := by
  rcases e with _ | ed
  · rcases statusThird_cases now none with h | h | h <;> simp [statusSecond, h]
  · rcases hle : pyLe sd now with _ | bv
    · simp [statusSecond, hle]
    · cases bv
      · rcases statusThird_cases now (some ed) with h | h | h <;>
          simp [statusSecond, hle, h]
      · rcases hle2 : pyLe now ed with _ | bv2
        · simp [statusSecond, hle, hle2]
        · cases bv2
          · rcases statusThird_cases now (some ed) with h | h | h <;>
              simp [statusSecond, hle, hle2, h]
          · simp [statusSecond, hle, hle2]

lemma statusTry_cases (now : PyDatetime) (s e : Option PyDatetime) :
    statusTry now s e = none ∨ statusTry now s e = some "upcoming" ∨
      statusTry now s e = some "running" ∨ statusTry now s e = some "ended" := by
  rcases s with _ | sd
  · rcases statusThird_cases now e with h | h | h <;> simp [statusTry, h]
  · rcases hlt : pyLt now sd with _ | bv
    · simp [statusTry, hlt]
    · cases bv
      · rcases statusSecond_cases now sd e with h | h | h | h <;> simp [statusTry, hlt, h]
      · simp [statusTry, hlt]

/-- C2 (amended): `determine_status_from_iso` never raises — it always
returns one of the three status strings — and a malformed (unparsable)
timestamp in either position makes the whole decision collapse to the
default `"upcoming"` (the parse error aborts the `try` block, it is NOT
equivalent to passing no timestamp). -/
theorem determine_status_total_and_malformed :
    (∀ (now : Int) (a b : Option String),
       determine_status_from_iso now a b = "upcoming" ∨
       determine_status_from_iso now a b = "running" ∨
       determine_status_from_iso now a b = "ended") ∧
    (∀ (now : Int) (a b : Option String),
       parseOptIso a = none ∨ parseOptIso b = none →
       determine_status_from_iso now a b = "upcoming") := by
  constructor
  · intro now a b
    unfold determine_status_from_iso statusExc
    rcases parseOptIso a with _ | s
    · simp
    · rcases parseOptIso b with _ | e
      · simp
      · rcases statusTry_cases ⟨now, none⟩ s e with h | h | h | h <;> simp [h]
  · intro now a b h
    unfold determine_status_from_iso statusExc
    rcases h with h | h
    · rw [h]
    · rw [h]
      rcases parseOptIso a with _ | s <;> simp

/-- Witness for C2's amended statement at concrete inputs: a malformed
`start_iso` yields `"upcoming"`, and the totality disjunction holds at a
well-formed pair. -/
theorem determine_status_total_and_malformed_witness :
    determine_status_from_iso nowMid2024 (some "garbage")
        (some "2000-01-01T00:00:00") = "upcoming" ∧
    (determine_status_from_iso nowMid2024 none (some "2000-01-01T00:00:00") = "upcoming" ∨
     determine_status_from_iso nowMid2024 none (some "2000-01-01T00:00:00") = "running" ∨
     determine_status_from_iso nowMid2024 none (some "2000-01-01T00:00:00") = "ended") :=
  ⟨determine_status_total_and_malformed.2 nowMid2024 (some "garbage")
      (some "2000-01-01T00:00:00") (Or.inl (by decide)),
   determine_status_total_and_malformed.1 nowMid2024 none (some "2000-01-01T00:00:00")⟩

/-- Counterexample to C2 as stated: with `now` = 2024-06-01, the malformed
start `"garbage"` next to the past end `2000-01-01` gives `"upcoming"`,
while the same call with the start absent gives `"ended"` — malformed
input does NOT behave like absent input. -/
theorem determine_status_malformed_ne_absent :
    determine_status_from_iso nowMid2024 (some "garbage")
        (some "2000-01-01T00:00:00") = "upcoming" ∧
    determine_status_from_iso nowMid2024 none
        (some "2000-01-01T00:00:00") = "ended" ∧
    ("upcoming" : String) ≠ "ended" := by
  refine ⟨by decide, by decide, by decide⟩

/-- C1 (amended): for timestamps that are absent/empty or parse to
offset-naive datetimes, `determine_status_from_iso` implements the spec's
decision order evaluated top-to-bottom — `now < start → upcoming`,
`start ≤ now ≤ end → running`, then `now > end → ended` whether or not a
start is present (not "only if end alone is present"), else `upcoming`. -/
theorem determine_status_naive_table :
    ∀ (now : Int) (a b : Option String) (sa sb : Option Int),
      parsedNaive a sa → parsedNaive b sb →
      determine_status_from_iso now a b = statusSpecTable now sa sb := by
  intro now a b sa sb ha hb
  unfold determine_status_from_iso statusExc
  rw [ha, hb]
  rcases sa with _ | s <;> rcases sb with _ | e
  · simp [statusTry, statusThird, statusSpecTable, beforeStartB, runningB, afterEndB]
  · by_cases he : e < now
    · simp [statusTry, statusThird, pyGt, statusSpecTable, beforeStartB, runningB,
        afterEndB, he]
    · simp [statusTry, statusThird, pyGt, statusSpecTable, beforeStartB, runningB,
        afterEndB, he]
  · by_cases hs : now < s
    · simp [statusTry, pyLt, statusSpecTable, beforeStartB, hs]
    · simp [statusTry, pyLt, statusSecond, statusThird, statusSpecTable,
        beforeStartB, runningB, afterEndB, hs]
  · by_cases hs : now < s
    · simp [statusTry, pyLt, statusSpecTable, beforeStartB, hs]
    · have h1 : s ≤ now := by omega
      by_cases hse : now ≤ e
      · simp [statusTry, pyLt, statusSecond, pyLe, statusSpecTable, beforeStartB,
          runningB, afterEndB, hs, hse, h1]
      · have h2 : e < now := by omega
        simp [statusTry, pyLt, statusSecond, pyLe, statusThird, pyGt,
          statusSpecTable, beforeStartB, runningB, afterEndB, hs, hse, h1, h2]

/-- Witness for C1's amended statement at a concrete naive pair
(start 2020, end 2030, now 2024 — a `"running"` instance). -/
theorem determine_status_naive_table_witness :
    determine_status_from_iso nowMid2024 (some "2020-01-01T00:00:00")
        (some "2030-01-01T00:00:00") =
      statusSpecTable nowMid2024 (some (pyStampD 2020 1 1)) (some (pyStampD 2030 1 1)) :=
  determine_status_naive_table nowMid2024 (some "2020-01-01T00:00:00")
    (some "2030-01-01T00:00:00") (some (pyStampD 2020 1 1)) (some (pyStampD 2030 1 1))
    (by decide) (by decide)

/-- Counterexample to C1 as stated: start 2000-01-01, end 2001-01-01, now
2024-06-01.  Start and end are both present and parse, so C1's clauses 1-3
do not apply ("only end is present" fails) and its catch-all predicts
`"upcoming"`; the code returns `"ended"`. -/
theorem determine_status_both_present_ended :
    determine_status_from_iso nowMid2024 (some "2000-01-01T00:00:00")
        (some "2001-01-01T00:00:00") = "ended" ∧
    ("ended" : String) ≠ "upcoming" := ⟨by decide, by decide⟩

lemma mkItem_url (root : Node) (p : List Nat) (url : String) :
    (mkItem root p url).url = url := by
  unfold mkItem
  cases h : spWalk root 6 p <;> simp [h]

lemma contains_false_not_mem {seen : List String} {u : String}
    (h : seen.contains u = false) : u ∉ seen := by
  simpa using h

/-- Invariant of the extraction loop: the produced URLs are pairwise
distinct and avoid everything already in `seen`. -/
lemma extractGo_nodup (root : Node) (u : String) :
    ∀ (ps : List (List Nat)) (seen : List String),
      ((extractGo root u ps seen).map (fun it => it.url)).Nodup ∧
      ∀ s ∈ seen, s ∉ (extractGo root u ps seen).map (fun it => it.url) := by
  intro ps
  induction ps with
  | nil => intro seen; simp [extractGo]
  | cons p ps ih =>
    intro seen
    unfold extractGo
    cases hpt : pyTruthy (findHrefRaw root p) with
    | false => simpa [hpt] using ih seen
    | true =>
      simp only [hpt, Bool.not_true, Bool.false_eq_true, if_false]
      by_cases h2 : resolveUrl u ((findHrefRaw root p).getD "") = "" ∨
          seen.contains (resolveUrl u ((findHrefRaw root p).getD ""))
      · rw [if_pos h2]; exact ih seen
      · rw [if_neg h2]
        push_neg at h2
        obtain ⟨hne, hcon⟩ := h2
        have hnotmem : resolveUrl u ((findHrefRaw root p).getD "") ∉ seen :=
          contains_false_not_mem (by simpa using hcon)
        obtain ⟨ihn, ihs⟩ := ih (resolveUrl u ((findHrefRaw root p).getD "") :: seen)
        refine ⟨?_, ?_⟩
        · simp only [List.map_cons, List.nodup_cons, mkItem_url]
          exact ⟨ihs _ (List.mem_cons_self _ _), ihn⟩
        · intro s hs
          simp only [List.map_cons, List.mem_cons, mkItem_url]
          rintro (rfl | hmem)
          · exact hnotmem hs
          · exact ihs s (List.mem_cons_of_mem _ hs) hmem

/-- Every URL resolved from some heading (and not empty) appears in the
output, provided it is not blocked by `seen`. -/
lemma extractGo_covers (root : Node) (pu : String) :
    ∀ (ps : List (List Nat)) (seen : List String) (u : String), u ∉ seen →
      (∃ p ∈ ps, pyTruthy (findHrefRaw root p) = true ∧
         resolveUrl pu ((findHrefRaw root p).getD "") = u ∧ u ≠ "") →
      u ∈ (extractGo root pu ps seen).map (fun it => it.url) := by
  intro ps
  induction ps with
  | nil => intro seen u _ h; simp at h
  | cons p ps ih =>
    intro seen u hu h
    rcases h with ⟨q, hq, hqt, hqr, hne⟩
    rw [List.mem_cons] at hq
    unfold extractGo
    rcases hq with rfl | hq
    · simp only [hqt, Bool.not_true, Bool.false_eq_true, if_false]
      rw [hqr]
      have hc : ¬ (u = "" ∨ seen.contains u) := by
        rintro (h | h)
        · exact hne h
        · exact hu (by simpa using h)
      rw [if_neg hc]
      simp [mkItem_url]
    · cases hpt : pyTruthy (findHrefRaw root p) with
      | false =>
        simp only [hpt, Bool.not_false, if_true]
        exact ih seen u hu ⟨q, hq, hqt, hqr, hne⟩
      | true =>
        simp only [hpt, Bool.not_true, Bool.false_eq_true, if_false]
        by_cases h2 : resolveUrl pu ((findHrefRaw root p).getD "") = "" ∨
            seen.contains (resolveUrl pu ((findHrefRaw root p).getD ""))
        · rw [if_pos h2]
          exact ih seen u hu ⟨q, hq, hqt, hqr, hne⟩
        · rw [if_neg h2]
          by_cases heq : u = resolveUrl pu ((findHrefRaw root p).getD "")
          · simp [mkItem_url, heq]
          · have : u ∈ (extractGo root pu ps
                (resolveUrl pu ((findHrefRaw root p).getD "") :: seen)).map
                  (fun it => it.url) := by
              refine ih _ u ?_ ⟨q, hq, hqt, hqr, hne⟩
              intro hmem
              rcases List.mem_cons.mp hmem with h3 | h3
              · exact heq h3
              · exact hu h3
            simp only [List.map_cons, List.mem_cons]
            exact Or.inr this

/-- Headings whose `href` resolution is falsy do not affect the loop. -/
lemma extractGo_filter (root : Node) (pu : String) :
    ∀ (ps : List (List Nat)) (seen : List String),
      extractGo root pu ps seen =
        extractGo root pu (ps.filter (fun p => pyTruthy (findHrefRaw root p))) seen := by
  intro ps
  induction ps with
  | nil => intro seen; rfl
  | cons p ps ih =>
    intro seen
    cases hpt : pyTruthy (findHrefRaw root p) with
    | false =>
      rw [List.filter_cons_of_neg (by simp [hpt])]
      conv_lhs => unfold extractGo
      simp only [hpt, Bool.not_false, if_true]
      exact ih seen
    | true =>
      rw [List.filter_cons_of_pos (by simp [hpt])]
      conv_lhs => unfold extractGo
      conv_rhs => unfold extractGo
      simp only [hpt, Bool.not_true, Bool.false_eq_true, if_false]
      by_cases h2 : resolveUrl pu ((findHrefRaw root p).getD "") = "" ∨
          seen.contains (resolveUrl pu ((findHrefRaw root p).getD ""))
      · rw [if_pos h2, if_pos h2]; exact ih seen
      · rw [if_neg h2, if_neg h2, ih]

/-- Items produced by the loop always carry a non-empty URL. -/
lemma extractGo_url_ne (root : Node) (pu : String) :
    ∀ (ps : List (List Nat)) (seen : List String) (it : ListingItem),
      it ∈ extractGo root pu ps seen → it.url ≠ "" := by
  intro ps
  induction ps with
  | nil => intro seen it h; simp [extractGo] at h
  | cons p ps ih =>
    intro seen it h
    unfold extractGo at h
    cases hpt : pyTruthy (findHrefRaw root p) with
    | false => rw [hpt] at h; simp at h; exact ih seen it h
    | true =>
      rw [hpt] at h
      simp only [Bool.not_true, Bool.false_eq_true, if_false] at h
      by_cases h2 : resolveUrl pu ((findHrefRaw root p).getD "") = "" ∨
          seen.contains (resolveUrl pu ((findHrefRaw root p).getD ""))
      · rw [if_pos h2] at h; exact ih seen it h
      · rw [if_neg h2] at h
        push_neg at h2
        rcases List.mem_cons.mp h with rfl | hmem
        · rw [mkItem_url]; exact h2.1
        · exact ih _ it hmem

/-- C5: `extract_listing_items` never returns two entries with the same
resolved URL — the output's `url` projections are pairwise distinct, every
non-empty URL resolved from some heading appears in the output, and on a
concrete listing whose two headings resolve to the same URL exactly one
entry is returned. -/
theorem extract_distinct_urls :
    (∀ (root : Node) (pageUrl : String),
       ((extract_listing_items root pageUrl).map (fun it => it.url)).Nodup) ∧
    (∀ (root : Node) (pageUrl : String) (u : String),
       (∃ p ∈ h3Paths root, pyTruthy (findHrefRaw root p) = true ∧
          resolveUrl pageUrl ((findHrefRaw root p).getD "") = u ∧ u ≠ "") →
       u ∈ (extract_listing_items root pageUrl).map (fun it => it.url)) ∧
    extract_listing_items pageTwoDup listingUrl =
      [⟨"Alpha One", "https://devpost.com/sw/alpha", none, none, none⟩] := by
  refine ⟨fun root pageUrl => (extractGo_nodup root pageUrl (h3Paths root) []).1,
    fun root pageUrl u h =>
      extractGo_covers root pageUrl (h3Paths root) [] u (by simp) h,
    by decide⟩

/-- Witness for C5: the shared resolved URL of `pageTwoDup`'s two headings
is in the output. -/
theorem extract_distinct_urls_witness :
    "https://devpost.com/sw/alpha" ∈
      (extract_listing_items pageTwoDup listingUrl).map (fun it => it.url) :=
  extract_distinct_urls.2.1 pageTwoDup listingUrl "https://devpost.com/sw/alpha"
    (by decide)

/-- C6: a page with zero matching headings yields the empty list (not an
error); every returned entry has a non-empty URL; headings whose `href`
resolution fails by all strategies are skipped entirely (the loop equals
the loop over the headings with a truthy resolved `href`); and on a
concrete listing with one linked and one anchor-less heading only the
linked one is returned. -/
theorem extract_empty_and_skip :
    (∀ (root : Node) (pageUrl : String), h3Paths root = [] →
       extract_listing_items root pageUrl = []) ∧
    (∀ (root : Node) (pageUrl : String) (it : ListingItem),
       it ∈ extract_listing_items root pageUrl → it.url ≠ "") ∧
    (∀ (root : Node) (pageUrl : String),
       extract_listing_items root pageUrl =
         extractGo root pageUrl
           ((h3Paths root).filter (fun p => pyTruthy (findHrefRaw root p))) []) ∧
    (extract_listing_items pageOrphan listingUrl).map (fun it => it.title) =
      ["Beta"] := by
  refine ⟨fun root pageUrl h => by unfold extract_listing_items; rw [h]; rfl,
    fun root pageUrl it h => extractGo_url_ne root pageUrl (h3Paths root) [] it h,
    fun root pageUrl => extractGo_filter root pageUrl (h3Paths root) [],
    by decide⟩

/-- Witness for C6 at concrete pages: the heading-free page maps to `[]`,
and the single entry extracted from `pageTwoDup` has a non-empty URL. -/
theorem extract_empty_and_skip_witness :
    extract_listing_items pagePlain listingUrl = [] ∧
    (⟨"Alpha One", "https://devpost.com/sw/alpha", none, none, none⟩ :
      ListingItem).url ≠ "" :=
  ⟨extract_empty_and_skip.1 pagePlain listingUrl (by decide),
   extract_empty_and_skip.2.1 pageTwoDup listingUrl
     ⟨"Alpha One", "https://devpost.com/sw/alpha", none, none, none⟩ (by decide)⟩

/-- When the detail page overrides nothing, assembly only uses the listing
data. -/
lemma assemble_doc_of_noOverride (now : Int) (it : ListingItem)
    (detail : Option Node) (hnd : noDetailOverride detail) :
    assemble_doc now it detail =
      { id := if it.url ≠ "" then slug_from_url it.url else it.title,
        name := it.title,
        submission_period :=
          if pyTruthy it.submission_period then it.submission_period
          else joinIsoParts it.begins_iso it.ends_iso,
        status := determine_status_from_iso now it.begins_iso it.ends_iso } := by
  unfold assemble_doc
  rcases detail with _ | d
  · by_cases hu : it.url ≠ "" <;> simp [hu]
  · obtain ⟨htd, hh1⟩ := hnd
    have hen : enrichName d it.title = it.title := by
      unfold enrichName
      unfold noH1Override at hh1
      rcases hf : (pageAll d).find? isH1 with _ | h1
      · rfl
      · rw [hf] at hh1
        have hmk : String.mk (pyStrip (textContent h1).data) = "" := by
          rw [hh1]
        simp [hmk]
    have hed : enrichDates d it.begins_iso it.ends_iso =
        (it.begins_iso, it.ends_iso) := by
      unfold enrichDates
      rw [htd]
      simp
    by_cases hu : it.url ≠ "" <;> simp [hu, hen, hed]

/-- C7: for a listing entry with `begins_iso = "2030-01-01T00:00:00Z"` and
no `ends_iso`, when the detail page overrides neither title nor dates, the
assembled document has `status = "upcoming"`, `id` = the URL-path slug when
a URL exists (else the raw title), and `submission_period` = the listing's
own text when truthy, else the begins timestamp itself. -/
theorem assemble_doc_upcoming_scenario :
    ∀ (now : Int) (it : ListingItem) (detail : Option Node),
      it.begins_iso = some "2030-01-01T00:00:00Z" →
      it.ends_iso = none →
      noDetailOverride detail →
      (assemble_doc now it detail).status = "upcoming" ∧
      (assemble_doc now it detail).id =
        (if it.url ≠ "" then slug_from_url it.url else it.title) ∧
      (assemble_doc now it detail).submission_period =
        (if pyTruthy it.submission_period then it.submission_period
         else some "2030-01-01T00:00:00Z") := by
  intro now it detail hb he hnd
  rw [assemble_doc_of_noOverride now it detail hnd]
  refine ⟨?_, rfl, ?_⟩
  · rw [hb, he]
    unfold determine_status_from_iso statusExc
    have hp : parseOptIso (some "2030-01-01T00:00:00Z") =
        some (some ⟨pyStampD 2030 1 1, some 0⟩) := by decide
    rw [hp]
    simp [parseOptIso, statusTry, pyLt]
  · rw [hb, he]
    have hj : joinIsoParts (some "2030-01-01T00:00:00Z") none =
        some "2030-01-01T00:00:00Z" := by decide
    rw [hj]

/-- Witness for C7 at a concrete entry (with URL) and absent detail data. -/
theorem assemble_doc_upcoming_scenario_witness :
    (assemble_doc nowMid2024
        ⟨"Great Hack", "https://devpost.com/sw/great-hack", none,
          some "2030-01-01T00:00:00Z", none⟩ none).status = "upcoming" ∧
    (assemble_doc nowMid2024
        ⟨"Great Hack", "https://devpost.com/sw/great-hack", none,
          some "2030-01-01T00:00:00Z", none⟩ none).id =
      (if ("https://devpost.com/sw/great-hack" : String) ≠ "" then
        slug_from_url "https://devpost.com/sw/great-hack" else "Great Hack") ∧
    (assemble_doc nowMid2024
        ⟨"Great Hack", "https://devpost.com/sw/great-hack", none,
          some "2030-01-01T00:00:00Z", none⟩ none).submission_period =
      (if pyTruthy none then none else some "2030-01-01T00:00:00Z") :=
  assemble_doc_upcoming_scenario nowMid2024
    ⟨"Great Hack", "https://devpost.com/sw/great-hack", none,
      some "2030-01-01T00:00:00Z", none⟩ none rfl rfl trivial

lemma pyReplace_ne_nil (l : List Char) (h : l ≠ []) :
    pyReplace l ['.'] ['-'] ≠ [] := by
  cases l with
  | nil => exact absurd rfl h
  | cons c rest =>
    show pyReplaceAux (rest.length + 1) (c :: rest) ['.'] ['-'] ≠ []
    unfold pyReplaceAux
    split
    next heq => exact absurd heq (by simp)
    next c2 rest2 heq => split <;> simp

lemma splitChar_ne_nil (sep : Char) (l : List Char) : splitChar sep l ≠ [] := by
  cases l with
  | nil => simp [splitChar]
  | cons c rest =>
    unfold splitChar
    by_cases hc : c = sep
    · simp [hc]
    · simp only [if_neg hc]
      cases h : splitChar sep rest <;> simp

lemma splitChar_last_ne (sep : Char) :
    ∀ l : List Char, l ≠ [] → (∀ a, l.getLast? = some a → a ≠ sep) →
      (splitChar sep l).getLastD [] ≠ [] := by
  intro l
  induction l with
  | nil => intro h; exact absurd rfl h
  | cons c rest ih =>
    intro _ hlast
    cases rest with
    | nil =>
      have hc : c ≠ sep := hlast c rfl
      simp [splitChar, hc]
    | cons c2 rest2 =>
      have hlast2 : ∀ a, (c2 :: rest2).getLast? = some a → a ≠ sep := by
        intro a ha
        exact hlast a (by rw [List.getLast?_cons_cons]; exact ha)
      have ihr := ih (by simp) hlast2
      unfold splitChar
      by_cases hc : c = sep
      · rw [if_pos hc]
        rcases hXe : splitChar sep (c2 :: rest2) with _ | ⟨g, gs⟩
        · exact absurd hXe (splitChar_ne_nil sep _)
        · rw [hXe] at ihr
          rw [List.getLastD_cons]
          rcases gs with _ | ⟨g2, gs2⟩
          · simpa using ihr
          · rw [List.getLastD_cons] at ihr ⊢
            exact ihr
      · rw [if_neg hc]
        rcases hXe : splitChar sep (c2 :: rest2) with _ | ⟨g, gs⟩
        · exact absurd hXe (splitChar_ne_nil sep _)
        · rw [hXe] at ihr
          rcases gs with _ | ⟨g2, gs2⟩
          · simp
          · rw [List.getLastD_cons] at ihr ⊢
            rw [List.getLastD_cons] at ihr ⊢
            exact ihr

lemma rstripP_last_false (p : Char → Bool) (l : List Char) :
    ∀ a, (rstripP p l).getLast? = some a → p a = false := by
  intro a h
  have hrev : (rstripP p l).reverse = l.reverse.dropWhile p := by
    unfold rstripP
    exact List.reverse_reverse _
  have h2 : (l.reverse.dropWhile p).head? = some a := by
    rw [← hrev, List.head?_reverse]
    exact h
  rcases hd : l.reverse.dropWhile p with _ | ⟨x, t⟩
  · rw [hd] at h2; simp at h2
  · rw [hd] at h2
    simp at h2
    subst h2
    exact dropWhile_head_false p _ _ _ hd

/-- Counterexample to C10 as stated: `slug_from_url` is not total.  On
`"http://[abc/path"` — whose extracted netloc `"[abc"` is non-empty —
`urlparse` raises `ValueError("Invalid IPv6 URL")` (mismatched bracket)
and `slug_from_url` propagates it instead of returning an identifier. -/
theorem slug_from_url_bracket_raises :
    slug_from_urlE "http://[abc/path" = Except.error "Invalid IPv6 URL" := by decide

/-- C10 (amended): `slug_from_url` propagates `urlparse`'s `ValueError`
(raised on a netloc with mismatched square brackets); on every URL that
`urlparse` parses without error and whose netloc is non-empty it returns,
without raising, a non-empty identifier — the netloc with `"."` replaced
by `"-"` when the trailing-slash-stripped path is empty, else the last
`"/"`-separated segment of that path. -/
theorem slug_from_urlE_spec :
    ∀ (url : String) (r : ParseRes),
      urlparseL url.data [] = Except.ok r → r.netloc ≠ [] →
      ∃ s : String,
        slug_from_urlE url = Except.ok s ∧ s ≠ "" ∧
        (rstripP (fun c => c = '/') r.path = [] →
          s = String.mk (pyReplace r.netloc ['.'] ['-'])) ∧
        (rstripP (fun c => c = '/') r.path ≠ [] →
          s = String.mk ((splitChar '/'
            (rstripP (fun c => c = '/') r.path)).getLastD [])) := by
  intro url r hok hn
  have hs : slug_from_urlE url =
      (if rstripP (fun c => c = '/') r.path = [] ∨
          rstripP (fun c => c = '/') r.path = ['/'] then
        Except.ok (String.mk (pyReplace r.netloc ['.'] ['-']))
      else
        Except.ok (String.mk ((splitChar '/'
          (rstripP (fun c => c = '/') r.path)).getLastD []))) := by
    unfold slug_from_urlE
    rw [hok]
  rw [hs]
  by_cases hp : rstripP (fun c => c = '/') r.path = []
  · rw [if_pos (Or.inl hp)]
    refine ⟨String.mk (pyReplace r.netloc ['.'] ['-']), rfl, ?_, fun _ => rfl,
      fun h => absurd hp h⟩
    intro hem
    exact pyReplace_ne_nil _ hn (congrArg String.data hem)
  · have hlast : ∀ a, (rstripP (fun c => c = '/') r.path).getLast? = some a →
        a ≠ '/' := by
      intro a ha heq
      have := rstripP_last_false (fun c => c = '/') r.path a ha
      rw [heq] at this
      simp at this
    have hslash : rstripP (fun c => c = '/') r.path ≠ ['/'] := by
      intro hq
      exact hlast '/' (by rw [hq]; rfl) rfl
    have hcond : ¬ (rstripP (fun c => c = '/') r.path = [] ∨
        rstripP (fun c => c = '/') r.path = ['/']) := by
      rintro (h | h)
      · exact hp h
      · exact hslash h
    rw [if_neg hcond]
    refine ⟨String.mk ((splitChar '/'
      (rstripP (fun c => c = '/') r.path)).getLastD []), rfl, ?_,
      fun h => absurd h hp, fun _ => rfl⟩
    intro hem
    exact splitChar_last_ne '/' _ hp hlast (congrArg String.data hem)

/-- Witness for C10's amended statement at a concrete parsed URL. -/
theorem slug_from_urlE_spec_witness :
    ∃ s : String,
      slug_from_urlE "https://devpost.com/hackathons/foo" = Except.ok s ∧ s ≠ "" :=
  match slug_from_urlE_spec "https://devpost.com/hackathons/foo"
      ⟨"https".data, "devpost.com".data, "/hackathons/foo".data, [], [], []⟩
      (by decide) (by decide) with
  | ⟨s, h1, h2, _, _⟩ => ⟨s, h1, h2⟩

/-- C4: `parse_iso_date` renders the first successful parse of the five
formats (tried in their order) as ISO-8601 — the given concrete examples
included — and returns the stripped input unchanged when every format
fails. -/
theorem parse_iso_date_formats :
    parse_iso_date "2024-03-15" = "2024-03-15T00:00:00" ∧
    parse_iso_date "not a date" = "not a date" ∧
    (∀ s : String, firstParse (pyStrip s.data) = none →
       parse_iso_date s = String.mk (pyStrip s.data)) ∧
    (∀ (s : String) (p : DateParts), runFmt fmtYmd (pyStrip s.data) = some p →
       parse_iso_date s = String.mk (isoRender p)) ∧
    (∀ (s : String) (p : DateParts), runFmt fmtYmd (pyStrip s.data) = none →
       runFmt fmtDMonY (pyStrip s.data) = some p →
       parse_iso_date s = String.mk (isoRender p)) := by
  refine ⟨by decide, by decide, ?_, ?_, ?_⟩
  · intro s h
    unfold parse_iso_date
    rw [h]
  · intro s p h
    unfold parse_iso_date firstParse
    rw [h]
  · intro s p h1 h2
    unfold parse_iso_date firstParse
    rw [h1, h2]

lemma digitToVal_digitChar (k : Nat) (hk : k < 10) :
    digitToVal (digitChar k) = some k := by
  interval_cases k <;> rfl

lemma digitChar_not_ws (n : Nat) : isPyWs (digitChar n) = false := by
  rcases n with _ | _ | _ | _ | _ | _ | _ | _ | _ | n <;> rfl

lemma parseY_pad4 (y : Nat) (hy : y ≤ 9999) (r : List Char) :
    parseY (pad4 y ++ r) = some (y, r) := by
  have h1 := digitToVal_digitChar (y / 1000 % 10) (Nat.mod_lt _ (by norm_num))
  have h2 := digitToVal_digitChar (y / 100 % 10) (Nat.mod_lt _ (by norm_num))
  have h3 := digitToVal_digitChar (y / 10 % 10) (Nat.mod_lt _ (by norm_num))
  have h4 := digitToVal_digitChar (y % 10) (Nat.mod_lt _ (by norm_num))
  simp only [pad4, List.cons_append, List.nil_append, parseY, h1, h2, h3, h4]
  have : ((y / 1000 % 10 * 10 + y / 100 % 10) * 10 + y / 10 % 10) * 10 + y % 10 = y := by
    omega
  rw [this]

lemma parseM_pad2 (m : Nat) (h1 : 1 ≤ m) (h2 : m ≤ 12) (r : List Char) :
    parseM (pad2 m ++ r) = some (m, r) := by
  interval_cases m <;> rfl

lemma parseD_pad2 (d : Nat) (h1 : 1 ≤ d) (h2 : d ≤ 31) (r : List Char) :
    parseD (pad2 d ++ r) = some (d, r) := by
  interval_cases d <;> rfl

lemma parseWsRun_digit (b : Nat) (l : List Char) :
    parseWsRun (digitChar b :: l) = none := by
  simp [parseWsRun, digitChar_not_ws b]

lemma parseD_digits2 (a b : Nat) (ha : a < 10) (hb : b < 10) (l : List Char) :
    parseD (digitChar a :: digitChar b :: l) = none ∨
    (∃ v, parseD (digitChar a :: digitChar b :: l) = some (v, digitChar b :: l)) ∨
    (∃ v, parseD (digitChar a :: digitChar b :: l) = some (v, l)) := by
  simp only [parseD, digitToVal_digitChar a ha, digitToVal_digitChar b hb]
  split_ifs <;>
    first
      | exact Or.inl rfl
      | exact Or.inr (Or.inl ⟨_, rfl⟩)
      | exact Or.inr (Or.inr ⟨_, rfl⟩)

/-- A format starting `%d<space>` fails on three leading digits: whichever
width `%d` commits to, the following character is a digit, not
whitespace. -/
lemma runDirs_D_wsp_digits (ds : List Dir) (acc : DateParts) (a b c : Nat)
    (ha : a < 10) (hb : b < 10) (l : List Char) :
    runDirs (Dir.dirD :: Dir.wsp :: ds)
      (digitChar a :: digitChar b :: digitChar c :: l) acc = none := by
  rcases parseD_digits2 a b ha hb (digitChar c :: l) with h | ⟨v, h⟩ | ⟨v, h⟩
  · simp [runDirs, h]
  · simp [runDirs, h, parseWsRun_digit b]
  · simp [runDirs, h, parseWsRun_digit c]

lemma parseB_digit (a : Nat) (ha : a < 10) (l : List Char) :
    parseB (digitChar a :: l) = none := by
  interval_cases a <;> rfl

lemma parseBB_digit (a : Nat) (ha : a < 10) (l : List Char) :
    parseBB (digitChar a :: l) = none := by
  interval_cases a <;> rfl

lemma runFmt_valid (ds : List Dir) (l : List Char) (p : DateParts)
    (h : runFmt ds l = some p) : validDate p = true := by
  unfold runFmt at h
  rcases hr : runDirs ds l ⟨1900, 1, 1⟩ with _ | ⟨q, rest⟩
  · rw [hr] at h; simp at h
  · rw [hr] at h
    rcases rest with _ | ⟨c, cs⟩
    · by_cases hv : validDate q
      · simp only [hv, if_true] at h
        cases h
        exact hv
      · simp [hv] at h
    · simp at h

lemma firstParse_valid (l : List Char) (p : DateParts)
    (h : firstParse l = some p) : validDate p = true := by
  unfold firstParse at h
  rcases h1 : runFmt fmtYmd l with _ | q <;> rw [h1] at h
  · rcases h2 : runFmt fmtDMonY l with _ | q <;> rw [h2] at h
    · rcases h3 : runFmt fmtDMonthY l with _ | q <;> rw [h3] at h
      · rcases h4 : runFmt fmtMonDY l with _ | q <;> rw [h4] at h
        · exact runFmt_valid _ _ _ h
        · cases h; exact runFmt_valid _ _ _ h4
      · cases h; exact runFmt_valid _ _ _ h3
    · cases h; exact runFmt_valid _ _ _ h2
  · cases h; exact runFmt_valid _ _ _ h1

lemma validDate_bounds (p : DateParts) (h : validDate p = true) :
    1 ≤ p.y ∧ p.y ≤ 9999 ∧ 1 ≤ p.m ∧ p.m ≤ 12 ∧ 1 ≤ p.d ∧
      p.d ≤ daysInMonth p.y p.m := by
  unfold validDate at h
  simp only [Bool.and_eq_true, decide_eq_true_eq] at h
  tauto

lemma daysInMonth_le_31 (y m : Nat) : daysInMonth y m ≤ 31 := by
  unfold daysInMonth
  split_ifs <;> omega

lemma isoRender_noWs (p : DateParts) : ∀ c ∈ isoRender p, isPyWs c = false := by
  intro c hc
  simp only [isoRender, pad4, pad2, List.cons_append, List.nil_append,
    List.mem_cons, List.mem_append, List.not_mem_nil, or_false] at hc
  rcases hc with rfl | rfl | rfl | rfl | rfl | rfl | rfl | rfl | rfl | rfl |
    rfl | rfl | rfl | rfl | rfl | rfl | rfl | rfl | rfl
  all_goals first | exact digitChar_not_ws _ | rfl

lemma pyStrip_of_noWs (l : List Char) (h : ∀ c ∈ l, isPyWs c = false) :
    pyStrip l = l := by
  have h1 : lstripP isPyWs l = l :=
    lstrip_noop _ _ (fun a t he => h a (he ▸ List.mem_cons_self a t))
  have h2 : rstripP isPyWs l = l := by
    refine rstrip_noop _ _ ?_
    intro a t he
    refine h a ?_
    have : a ∈ l.reverse := he ▸ List.mem_cons_self a t
    exact List.mem_reverse.mp this
  show rstripP isPyWs (lstripP isPyWs l) = l
  rw [h1, h2]

/-- `%Y-%m-%d` on a rendered ISO timestamp consumes the date and leaves
`T00:00:00` unconsumed — strptime fails with trailing data. -/
lemma runFmt_Ymd_render (p : DateParts) (hy : p.y ≤ 9999) (hm1 : 1 ≤ p.m)
    (hm2 : p.m ≤ 12) (hd1 : 1 ≤ p.d) (hd2 : p.d ≤ 31) :
    runFmt fmtYmd (isoRender p) = none := by
  unfold runFmt fmtYmd isoRender
  rw [show (runDirs [Dir.dirY, Dir.lit '-', Dir.dirM, Dir.lit '-', Dir.dirD]
      (pad4 p.y ++ '-' :: (pad2 p.m ++ '-' :: (pad2 p.d ++
        ['T', '0', '0', ':', '0', '0', ':', '0', '0']))) ⟨1900, 1, 1⟩) =
      some (⟨p.y, p.m, p.d⟩, ['T', '0', '0', ':', '0', '0', ':', '0', '0']) from ?_]
  simp [runDirs, parseY_pad4 p.y hy, parseM_pad2 p.m hm1 hm2,
    parseD_pad2 p.d hd1 hd2]

lemma isoRender_shape (p : DateParts) :
    isoRender p = digitChar (p.y / 1000 % 10) :: digitChar (p.y / 100 % 10) ::
      digitChar (p.y / 10 % 10) :: (digitChar (p.y % 10) :: '-' ::
        (pad2 p.m ++ '-' :: (pad2 p.d ++
          ['T', '0', '0', ':', '0', '0', ':', '0', '0']))) := by
  simp [isoRender, pad4]

lemma runFmt_DMonY_render (p : DateParts) : runFmt fmtDMonY (isoRender p) = none := by
  rw [isoRender_shape]
  unfold runFmt fmtDMonY
  rw [runDirs_D_wsp_digits [Dir.dirB, Dir.wsp, Dir.dirY] ⟨1900, 1, 1⟩
    (p.y / 1000 % 10) (p.y / 100 % 10) (p.y / 10 % 10)
    (Nat.mod_lt _ (by norm_num)) (Nat.mod_lt _ (by norm_num))]

lemma runFmt_DMonthY_render (p : DateParts) : runFmt fmtDMonthY (isoRender p) = none := by
  rw [isoRender_shape]
  unfold runFmt fmtDMonthY
  rw [runDirs_D_wsp_digits [Dir.dirBB, Dir.wsp, Dir.dirY] ⟨1900, 1, 1⟩
    (p.y / 1000 % 10) (p.y / 100 % 10) (p.y / 10 % 10)
    (Nat.mod_lt _ (by norm_num)) (Nat.mod_lt _ (by norm_num))]

lemma runFmt_MonDY_render (p : DateParts) : runFmt fmtMonDY (isoRender p) = none := by
  rw [isoRender_shape]
  unfold runFmt fmtMonDY
  rw [show runDirs
      [Dir.dirB, Dir.wsp, Dir.dirD, Dir.lit ',', Dir.wsp, Dir.dirY]
      (digitChar (p.y / 1000 % 10) :: digitChar (p.y / 100 % 10) ::
        digitChar (p.y / 10 % 10) :: (digitChar (p.y % 10) :: '-' ::
          (pad2 p.m ++ '-' :: (pad2 p.d ++
            ['T', '0', '0', ':', '0', '0', ':', '0', '0'])))) ⟨1900, 1, 1⟩ = none from ?_]
  simp [runDirs, parseB_digit (p.y / 1000 % 10) (Nat.mod_lt _ (by norm_num))]

lemma runFmt_MonthDY_render (p : DateParts) : runFmt fmtMonthDY (isoRender p) = none := by
  rw [isoRender_shape]
  unfold runFmt fmtMonthDY
  rw [show runDirs
      [Dir.dirBB, Dir.wsp, Dir.dirD, Dir.lit ',', Dir.wsp, Dir.dirY]
      (digitChar (p.y / 1000 % 10) :: digitChar (p.y / 100 % 10) ::
        digitChar (p.y / 10 % 10) :: (digitChar (p.y % 10) :: '-' ::
          (pad2 p.m ++ '-' :: (pad2 p.d ++
            ['T', '0', '0', ':', '0', '0', ':', '0', '0'])))) ⟨1900, 1, 1⟩ = none from ?_]
  simp [runDirs, parseBB_digit (p.y / 1000 % 10) (Nat.mod_lt _ (by norm_num))]

/-- No strptime format re-parses a rendered ISO timestamp. -/
lemma firstParse_render_none (p : DateParts) (hval : validDate p = true) :
    firstParse (isoRender p) = none := by
  obtain ⟨_, hy2, hm1, hm2, hd1, hd2'⟩ := validDate_bounds p hval
  have hd2 : p.d ≤ 31 := le_trans hd2' (daysInMonth_le_31 _ _)
  unfold firstParse
  rw [runFmt_Ymd_render p hy2 hm1 hm2 hd1 hd2, runFmt_DMonY_render p,
    runFmt_DMonthY_render p, runFmt_MonDY_render p, runFmt_MonthDY_render p]

/-- C9: `parse_iso_date` is idempotent — a successful parse renders to a
whitespace-free `YYYY-MM-DDT00:00:00` string that matches none of the five
formats, and a failed parse returns the stripped input, on which a second
call fails identically. -/
theorem parse_iso_date_idem :
    ∀ s : String, parse_iso_date (parse_iso_date s) = parse_iso_date s := by
  intro s
  rcases hf : firstParse (pyStrip s.data) with _ | p
  · have h1 : parse_iso_date s = String.mk (pyStrip s.data) := by
      unfold parse_iso_date
      rw [hf]
    rw [h1]
    unfold parse_iso_date
    show (match firstParse (pyStrip (pyStrip s.data)) with
      | some p => String.mk (isoRender p)
      | none => String.mk (pyStrip (pyStrip s.data))) = String.mk (pyStrip s.data)
    rw [pyStrip_idem, hf]
  · have hval := firstParse_valid _ _ hf
    have h1 : parse_iso_date s = String.mk (isoRender p) := by
      unfold parse_iso_date
      rw [hf]
    rw [h1]
    unfold parse_iso_date
    show (match firstParse (pyStrip (isoRender p)) with
      | some q => String.mk (isoRender q)
      | none => String.mk (pyStrip (isoRender p))) = String.mk (isoRender p)
    rw [pyStrip_of_noWs _ (isoRender_noWs p), firstParse_render_none p hval]

/-- Witness for C4: the all-formats-fail case at `"xyz"`, the first-format
case at `"2024-03-15"` and the second-format case at `"15 Mar 2024"`. -/
theorem parse_iso_date_formats_witness :
    parse_iso_date "xyz" = String.mk (pyStrip "xyz".data) ∧
    parse_iso_date "2024-03-15" = String.mk (isoRender ⟨2024, 3, 15⟩) ∧
    parse_iso_date "15 Mar 2024" = String.mk (isoRender ⟨2024, 3, 15⟩) :=
  ⟨parse_iso_date_formats.2.2.1 "xyz" (by decide),
   parse_iso_date_formats.2.2.2.1 "2024-03-15" ⟨2024, 3, 15⟩ (by decide),
   parse_iso_date_formats.2.2.2.2 "15 Mar 2024" ⟨2024, 3, 15⟩ (by decide) (by decide)⟩
